import Mathlib

/-!
Verification of the spec-mas specification QA engine against its source
(`src/validation/gates.py` and `src/adversarial/review.py`).

The Python code operates on YAML-loaded documents (nested dictionaries,
lists, strings, numbers, booleans and null).  We embed that dynamic value
universe as the inductive type `Value` below, together with the pieces of
Python runtime behaviour the code relies on:

* `reprV` — Python `repr`/`str` of a value (the code repeatedly forms
  `str(spec).lower()` and scans it for substrings);
* `iterate` — Python iteration (`for x in v` / `list.extend(v)`): lists
  yield their elements, strings yield their characters (as length-1
  strings), dicts yield their keys, and other scalars raise `TypeError`;
* `pyLen`, `pyIn`, `pyEq`, `pyFalsy` — `len(v)`, `x in v`, `==` and
  truthiness.

A top-level specification document (`SpecDoc`) is an insertion-ordered
dictionary with string keys, matching both loaders in the source (the
YAML path and the markdown path both produce such a mapping).  Fallible
Python code is embedded as `Except PyErr`.  Floating-point values and
non-string dictionary keys never occur in the checks under study and are
outside the embedded universe.
-/

/-- A raised Python exception, carrying the exception class and message. -/
inductive PyErr where
  | typeError (msg : String)
  | attributeError (msg : String)
deriving DecidableEq

/-- The universe of YAML-loaded Python values used by the code under review. -/
inductive Value where
  | pyNone : Value
  | bool : Bool → Value
  | int : Int → Value
  | str : String → Value
  | list : List Value → Value
  | dict : List (String × Value) → Value

/-- A specification document: an insertion-ordered mapping from section
name to section content, as produced by both loaders in the source. -/
abbrev SpecDoc := List (String × Value)

/-- The ASCII apostrophe, kept out of string literals. -/
def squote : Char := Char.ofNat 39

/-- Wrap a string in apostrophes, as Python f-strings in the source do. -/
def qt (s : String) : String := String.singleton squote ++ s ++ String.singleton squote

/-- The Python type name of a value, as it appears in error messages. -/
def typeName : Value → String
  | .pyNone => "NoneType"
  | .bool _ => "bool"
  | .int _ => "int"
  | .str _ => "str"
  | .list _ => "list"
  | .dict _ => "dict"

/-- Lower-case hex digit. -/
def hexDigit (n : Nat) : Char :=
  if n < 10 then Char.ofNat (48 + n) else Char.ofNat (87 + n)

/-- Escape one character inside a Python string repr quoted with `q`. -/
def escapeChar (q c : Char) : String :=
  if c == Char.ofNat 92 then String.singleton (Char.ofNat 92) ++ String.singleton (Char.ofNat 92)
  else if c == q then String.singleton (Char.ofNat 92) ++ String.singleton q
  else if c == Char.ofNat 10 then String.singleton (Char.ofNat 92) ++ "n"
  else if c == Char.ofNat 13 then String.singleton (Char.ofNat 92) ++ "r"
  else if c == Char.ofNat 9 then String.singleton (Char.ofNat 92) ++ "t"
  else if c.toNat < 32 || c.toNat == 127 then
    String.singleton (Char.ofNat 92) ++ "x" ++
      String.singleton (hexDigit (c.toNat / 16)) ++ String.singleton (hexDigit (c.toNat % 16))
  else String.singleton c

/-- Python `repr` of a string: single quotes unless the string contains an
apostrophe and no double quote, with CPython's ASCII escaping rules. -/
def pyReprStr (s : String) : String :=
  let hasSQ := s.data.contains squote
  let hasDQ := s.data.contains '"'
  let q : Char := if hasSQ && !hasDQ then '"' else squote
  String.singleton q ++ String.join (s.data.map (escapeChar q)) ++ String.singleton q

mutual

/-- Python `repr` (equivalently `str`) of a container value: dicts render as
`\x7b'key': value, ...\x7d`, lists as `[a, b]`, strings with quotes. -/
def reprV : Value → String
  | .pyNone => "None"
  | .bool b => if b then "True" else "False"
  | .int n => toString n
  | .str s => pyReprStr s
  | .list l => "[" ++ String.intercalate ", " (reprListV l) ++ "]"
  | .dict d => "\x7b" ++ String.intercalate ", " (reprEntries d) ++ "\x7d"

/-- `repr` of each element of a list value. -/
def reprListV : List Value → List String
  | [] => []
  | v :: vs => reprV v :: reprListV vs

/-- `repr` of each `key: value` entry of a dict value. -/
def reprEntries : List (String × Value) → List String
  | [] => []
  | (k, v) :: rest => (pyReprStr k ++ ": " ++ reprV v) :: reprEntries rest

end

/-- Python `str(v)`: identity on strings, `repr` on the other embedded types. -/
def pyStr : Value → String
  | .str s => s
  | v => reprV v

/-- Python truthiness of a value. -/
def pyFalsy : Value → Bool
  | .pyNone => true
  | .bool b => !b
  | .int n => n == 0
  | .str s => s == ""
  | .list l => l.isEmpty
  | .dict d => d.isEmpty

/-- Python `len(v)`: defined for strings, lists and dicts; `TypeError` otherwise. -/
def pyLen : Value → Except PyErr Nat
  | .str s => .ok s.length
  | .list l => .ok l.length
  | .dict d => .ok d.length
  | v => .error (.typeError ("object of type " ++ qt (typeName v) ++ " has no len()"))

/-- Python iteration (`for x in v`, `list.extend(v)`): lists yield elements,
strings yield their characters as length-1 strings, dicts yield their keys,
and non-iterable scalars raise `TypeError`. -/
def iterate : Value → Except PyErr (List Value)
  | .list l => .ok l
  | .str s => .ok (s.data.map (fun c => Value.str (String.singleton c)))
  | .dict d => .ok (d.map (fun kv => Value.str kv.1))
  | v => .error (.typeError (qt (typeName v) ++ " object is not iterable"))

mutual

/-- Python `==` on embedded values: numeric cross-equality between `bool`
and `int` (True == 1), structural on containers, `False` across other types. -/
def pyEq : Value → Value → Bool
  | .pyNone, .pyNone => true
  | .bool a, .bool b => a == b
  | .bool a, .int b => (if a then (1 : Int) else 0) == b
  | .int a, .bool b => a == (if b then (1 : Int) else 0)
  | .int a, .int b => a == b
  | .str a, .str b => a == b
  | .list a, .list b => pyEqList a b
  | .dict a, .dict b => pyEqDict a b
  | _, _ => false

/-- Elementwise Python `==` on lists. -/
def pyEqList : List Value → List Value → Bool
  | [], [] => true
  | a :: as_, b :: bs => pyEq a b && pyEqList as_ bs
  | _, _ => false

/-- Python `==` on dicts: same size and every key of the left dict maps to an
equal value on the right (dict keys are unique, so this is dict equality). -/
def pyEqDict (a b : List (String × Value)) : Bool :=
  a.length == b.length && pyEqAll a b

/-- Helper for `pyEqDict`: each entry of `a` is matched in `b`. -/
def pyEqAll : List (String × Value) → List (String × Value) → Bool
  | [], _ => true
  | (k, v) :: rest, b =>
    (match b.lookup k with
     | some w => pyEq v w
     | none => false) && pyEqAll rest b

end

/-- Is the first list a prefix of the second? -/
def headMatch : List Char → List Char → Bool
  | [], _ => true
  | _ :: _, [] => false
  | a :: as_, b :: bs => a == b && headMatch as_ bs

/-- Does `hay` contain `needle` as a contiguous substring (Python
`needle in hay` on strings; the empty needle always matches)? -/
def hasSub : List Char → List Char → Bool
  | _, [] => true
  | [], _ :: _ => false
  | h :: t, ns => headMatch ns (h :: t) || hasSub t ns

/-- Python substring test `needle in hay` on strings. -/
def strContains (hay needle : String) : Bool := hasSub hay.data needle.data

/-- Python `x in v` for a string `x`: key membership for dicts, element
membership for lists, substring for strings, `TypeError` otherwise. -/
def pyIn (t : String) (v : Value) : Except PyErr Bool :=
  match v with
  | .dict d => .ok (d.any (fun kv => kv.1 == t))
  | .list l => .ok (l.any (fun x => pyEq x (.str t)))
  | .str s => .ok (strContains s t)
  | other => .error (.typeError ("argument of type " ++ qt (typeName other) ++ " is not iterable"))

/-- Python `str.lower()` (ASCII case mapping; the texts under study are ASCII). -/
def lowerStr (s : String) : String := String.mk (s.data.map Char.toLower)

/-- Python string slice `s[:n]`. -/
def strTake (s : String) (n : Nat) : String := String.mk (s.data.take n)

/-- Regex word character `\w` (ASCII): letters, digits, underscore. -/
def isWordChar (c : Char) : Bool := c.isAlphanum || c == '_'

/-- Regex whitespace `\s` (ASCII): space, tab, newline, CR, FF, VT. -/
def isSpaceChar (c : Char) : Bool :=
  c == ' ' || c == Char.ofNat 9 || c == Char.ofNat 10 || c == Char.ofNat 13 ||
  c == Char.ofNat 11 || c == Char.ofNat 12

/-- Lower-case ASCII letter. -/
def isLowerAZ (c : Char) : Bool := 97 ≤ c.toNat && c.toNat ≤ 122

/-- Split a character list into its maximal runs of characters satisfying `p`
(accumulator holds the current run reversed). -/
def runsAux (p : Char → Bool) : List Char → List Char → List (List Char)
  | [], cur => if cur.isEmpty then [] else [cur.reverse]
  | c :: cs, cur =>
    if p c then runsAux p cs (c :: cur)
    else if cur.isEmpty then runsAux p cs []
    else cur.reverse :: runsAux p cs []

/-- Maximal runs of characters satisfying `p`, in order. -/
def runs (p : Char → Bool) (cs : List Char) : List (List Char) := runsAux p cs []

/-- `re.findall(r'\b[a-z]+\b', s)`: inside `[a-z]+` no word boundary can occur,
so every match is a maximal `\w`-run consisting solely of `a`-`z`. -/
def findLowerWords (s : String) : List String :=
  ((runs isWordChar s.data).filter (fun r => r.all isLowerAZ)).map String.mk

/-- `re.findall(r'[A-Z]{2,}', s)`: maximal upper-case runs of length at least 2
(the pattern has no boundaries; greedy matching takes each maximal run whole). -/
def findAcronyms (s : String) : List String :=
  ((runs Char.isUpper s.data).filter (fun r => 2 ≤ r.length)).map String.mk

/-- For `re.findall((A|B|...) + r'\b')`-style whole-word search with
`re.IGNORECASE`: does `s` contain `w` as a whole word, case-insensitively?
`\b` never holds inside a `\w`-run, so a hit is a maximal `\w`-run whose
lower-casing equals the (all-letter) word. -/
def searchWordCI (words : List String) (s : String) : Bool :=
  (runs isWordChar s.data).any (fun r => words.contains (String.mk (r.map Char.toLower)))

/-- One attempt of `\w+API`-style matching at the current position: the
greedy `\w+` backtracks to the last occurrence of `suffix` inside the maximal
`\w`-run starting here that leaves at least one `\w` before it.  Returns the
match and the remaining input after it. -/
def tryMatchSuffixAt (sfx cs : List Char) : Option (String × List Char) :=
  let run := cs.takeWhile isWordChar
  match ((List.range (run.length + 1)).reverse).find?
      (fun k => 1 ≤ k && k + sfx.length ≤ run.length && headMatch sfx (run.drop k)) with
  | some k => some (String.mk (run.take (k + sfx.length)), cs.drop (k + sfx.length))
  | none => none

/-- `re.findall(r'\w+' + suffix, s)` for a `\w`-only literal suffix: leftmost
scan with greedy backtracking, non-overlapping, continuing after each match.
Fuel bounds the scan by the input length (each step consumes at least one
character). -/
def findallSuffixAux (sfx : List Char) : Nat → List Char → List String
  | 0, _ => []
  | _, [] => []
  | fuel + 1, c :: cs =>
    match tryMatchSuffixAt sfx (c :: cs) with
    | some (m, rest) => m :: findallSuffixAux sfx fuel rest
    | none => findallSuffixAux sfx fuel cs

/-- `re.findall(r'\w+API', s)`-style search (suffix passed as a string). -/
def findallSuffix (sfx : String) (s : String) : List String :=
  findallSuffixAux sfx.data s.data.length s.data

/-- One attempt of `(GET|POST|PUT|DELETE|PATCH)\s+/[\w/]+` at the current
position: a method literal, then a maximal nonempty whitespace run, then `/`,
then a maximal nonempty `[\w/]` run.  Returns the capture group (the method)
and the remaining input after the whole match. -/
def methodAt (cs : List Char) : Option (String × List Char) :=
  ["GET", "POST", "PUT", "DELETE", "PATCH"].findSome? (fun m =>
    if headMatch m.data cs then
      let rest := cs.drop m.length
      let ws := rest.takeWhile isSpaceChar
      if ws.isEmpty then none
      else
        match rest.drop ws.length with
        | '/' :: rest2 =>
          let path := rest2.takeWhile (fun c => isWordChar c || c == '/')
          if path.isEmpty then none else some (m, rest2.drop path.length)
        | _ => none
    else none)

/-- `re.findall(r'(GET|POST|PUT|DELETE|PATCH)\s+/[\w/]+', s)`: because the
pattern has a capturing group, `findall` returns only the group — the HTTP
method — for each match, not the full `METHOD /path` text.  Fuel bounds the
scan by the input length. -/
def endpointScan : Nat → List Char → List String
  | 0, _ => []
  | _, [] => []
  | fuel + 1, c :: cs =>
    match methodAt (c :: cs) with
    | some (m, rest) => m :: endpointScan fuel rest
    | none => endpointScan fuel cs

/-- First-occurrence deduplication.  The source uses `list(set(xs))`, whose
order is unspecified; every use in the source is order-insensitive (membership
tests, or ordering of warning strings only), so we fix insertion order. -/
def dedupFirst (xs : List String) : List String :=
  xs.foldl (fun acc w => if acc.contains w then acc else acc ++ [w]) []

/-- Key lookup in a `SpecDoc` (Python dict indexing / `.get`). -/
def docGet (spec : SpecDoc) (k : String) : Option Value := spec.lookup k

/-- Python `k in spec` on the document mapping. -/
def hasKey (spec : SpecDoc) (k : String) : Bool := (docGet spec k).isSome

/-- Python `spec.get(k, default)`. -/
def docGetD (spec : SpecDoc) (k : String) (d : Value) : Value := (docGet spec k).getD d

/-- `str(spec)` for the whole document (a dict at top level). -/
def specRepr (spec : SpecDoc) : String := reprV (Value.dict spec)

/-- `str(spec).lower()`, the normalized full-text view every rule scans. -/
def specTextLower (spec : SpecDoc) : String := lowerStr (specRepr spec)

/-- `pathlib.PurePath(name).suffix` for a bare file name: the part from the
last dot, provided that dot is neither the first nor the last character. -/
def pathSuffix (name : String) : String :=
  let n := name.length
  match ((List.range n).reverse).find? (fun i => name.data.get? i == some '.') with
  | some i => if 0 < i && i < n - 1 then String.mk (name.data.drop i) else ""
  | none => ""

/-- `spec.get('metadata', \x7b\x7d).get('name', 'unknown')`: missing keys give
`'unknown'`; a non-dict `metadata` value raises `AttributeError` on `.get`. -/
def getMetaName (spec : SpecDoc) : Except PyErr Value :=
  match docGet spec "metadata" with
  | Option.none => .ok (.str "unknown")
  | some (.dict d) => .ok ((d.lookup "name").getD (.str "unknown"))
  | some v => .error (.attributeError (qt (typeName v) ++ " object has no attribute " ++ qt "get"))

/-- `Severity` enum from `adversarial/review.py`. -/
inductive Severity where
  | CRITICAL
  | HIGH
  | MEDIUM
  | LOW
  | INFO
deriving DecidableEq

/-- `Severity.value`: the string payload of each enum member. -/
def Severity.value : Severity → String
  | .CRITICAL => "CRITICAL"
  | .HIGH => "HIGH"
  | .MEDIUM => "MEDIUM"
  | .LOW => "LOW"
  | .INFO => "INFO"

/-- The `AdversarialFinding` dataclass; optional fields default to `None`. -/
structure AdversarialFinding where
  adversary : String
  severity : Severity
  issue : String
  details : String
  attack_vector : Option String := Option.none
  misinterpretation : Option String := Option.none
  suggested_defense : Option String := Option.none
  location : Option String := Option.none
deriving DecidableEq

/-- `f.severity == Severity.CRITICAL`. -/
def isCritical (f : AdversarialFinding) : Bool :=
  match f.severity with
  | .CRITICAL => true
  | _ => false

/-- `SecurityAdversary._check_authentication`. -/
def checkAuthentication (spec : SpecDoc) : List AdversarialFinding :=
  let t := specTextLower spec
  let hasUserActions := ["create", "update", "delete", "modify", "submit", "approve"].any
    (fun a => strContains t a)
  let hasAuth := ["authenticate", "authentication", "login", "jwt", "oauth", "token"].any
    (fun a => strContains t a)
  (if hasUserActions && !hasAuth then
    [{ adversary := "Security Adversary", severity := .CRITICAL,
       issue := "Missing authentication requirements",
       details := "Spec defines user actions but doesn" ++ String.singleton squote ++
         "t specify authentication",
       attack_vector := some "Unauthenticated access to user functions",
       suggested_defense := some "Add explicit authentication requirements for all user actions" }]
   else []) ++
  (if hasAuth && !(strContains t "session") && !(strContains t "token") then
    [{ adversary := "Security Adversary", severity := .HIGH,
       issue := "No session management specified",
       details := "Authentication mentioned but no session/token management",
       attack_vector := some "Session hijacking, token replay attacks",
       suggested_defense := some "Specify session timeout, token refresh, and revocation mechanisms" }]
   else [])

/-- `SecurityAdversary._check_authorization`. -/
def checkAuthorization (spec : SpecDoc) : List AdversarialFinding :=
  let t := specTextLower spec
  let hasRoles := ["admin", "user", "manager", "owner", "member"].any (fun a => strContains t a)
  let hasAuthz := ["authorization", "permission", "access control", "rbac", "acl"].any
    (fun a => strContains t a)
  if hasRoles && !hasAuthz then
    [{ adversary := "Security Adversary", severity := .HIGH,
       issue := "Missing authorization requirements",
       details := "Spec mentions roles but no authorization checks",
       attack_vector := some "Privilege escalation, unauthorized access",
       suggested_defense := some "Add explicit authorization checks for all role-based operations" }]
  else []

/-- `SecurityAdversary._check_data_protection`. -/
def checkDataProtection (spec : SpecDoc) : List AdversarialFinding :=
  let t := specTextLower spec
  let hasPii := ["email", "phone", "address", "ssn", "social security",
    "credit card", "payment", "password", "date of birth"].any (fun a => strContains t a)
  let hasEncryption := ["encrypt", "encryption", "hashed", "bcrypt", "aes"].any
    (fun a => strContains t a)
  (if hasPii && !hasEncryption then
    [{ adversary := "Security Adversary", severity := .CRITICAL,
       issue := "Unprotected sensitive data",
       details := "Spec handles PII but doesn" ++ String.singleton squote ++ "t specify encryption",
       attack_vector := some "Data breach, compliance violations",
       suggested_defense := some "Require encryption at rest and in transit for all PII" }]
   else []) ++
  (if strContains t "log" && hasPii && !(strContains t "redact") && !(strContains t "mask") then
    [{ adversary := "Security Adversary", severity := .HIGH,
       issue := "Potential sensitive data in logs",
       details := "Logging mentioned with PII but no redaction specified",
       attack_vector := some "Information disclosure through logs",
       suggested_defense := some "Specify PII redaction/masking in all logs" }]
   else [])

/-- `SecurityAdversary._check_injection_risks`. -/
def checkInjectionRisks (spec : SpecDoc) : List AdversarialFinding :=
  let t := specTextLower spec
  let hasDb := ["database", "sql", "query", "select", "insert", "update", "delete"].any
    (fun a => strContains t a)
  let hasProtection := ["parameterized", "prepared statement", "sanitize", "escape"].any
    (fun a => strContains t a)
  (if hasDb && !hasProtection then
    [{ adversary := "Security Adversary", severity := .HIGH,
       issue := "SQL injection risk",
       details := "Database operations without parameterization requirements",
       attack_vector := some "SQL injection attacks",
       suggested_defense := some "Require parameterized queries for all database operations" }]
   else []) ++
  (if ["execute", "shell", "command", "system", "exec"].any (fun a => strContains t a) then
    [{ adversary := "Security Adversary", severity := .CRITICAL,
       issue := "Command injection risk",
       details := "Spec involves command execution",
       attack_vector := some "Remote code execution",
       suggested_defense :=
         some "Avoid shell commands; if required, specify strict input validation" }]
   else [])

/-- `SecurityAdversary._check_validation`. -/
def checkValidationIssues (spec : SpecDoc) : List AdversarialFinding :=
  let t := specTextLower spec
  let hasInput := ["input", "form", "upload", "parameter", "request"].any
    (fun a => strContains t a)
  let hasValidation := ["validate", "validation", "sanitize", "whitelist", "regex"].any
    (fun a => strContains t a)
  if hasInput && !hasValidation then
    [{ adversary := "Security Adversary", severity := .HIGH,
       issue := "Missing input validation",
       details := "User input accepted without validation requirements",
       attack_vector := some "XSS, injection attacks, buffer overflow",
       suggested_defense := some "Specify validation rules for all user inputs" }]
  else []

/-- `SecurityAdversary.attack_spec`: the five checks, in call order. -/
def securityAttack (spec : SpecDoc) : List AdversarialFinding :=
  checkAuthentication spec ++ checkAuthorization spec ++ checkDataProtection spec ++
    checkInjectionRisks spec ++ checkValidationIssues spec

/-- The `AmbiguityAdversary.vague_terms` table, in insertion order. -/
def vagueTerms : List (String × String) :=
  [("should", "Use " ++ qt "MUST" ++ " for requirements"),
   ("may", "Use " ++ qt "MUST" ++ " or " ++ qt "MUST NOT" ++ " for clarity"),
   ("might", "Be explicit about optionality"),
   ("could", "Use " ++ qt "MUST" ++ " or " ++ qt "MAY" ++ " per RFC 2119"),
   ("consider", "Specify exact requirements"),
   ("appropriate", "Define what is appropriate"),
   ("reasonable", "Specify exact bounds"),
   ("timely", "Specify exact time limits"),
   ("efficient", "Define performance metrics"),
   ("secure", "Specify security requirements"),
   ("user-friendly", "Define specific UX requirements"),
   ("scalable", "Specify scalability metrics"),
   ("robust", "Define failure scenarios"),
   ("flexible", "Specify variation points")]

/-- `AmbiguityAdversary._generate_misinterpretation`: a fixed table keyed by
the vague term (the requirement argument of the source method is unused). -/
def genMisinterpretation (term : String) : String :=
  if term == "should" then "Interpreted as optional - skipping this requirement"
  else if term == "may" then
    "Interpreted as " ++ qt "will not" ++ " - opposite of intended"
  else if term == "appropriate" then
    "Interpreted as " ++ qt "minimal" ++ " - lowest effort implementation"
  else if term == "reasonable" then
    "Interpreted as " ++ qt "unlimited" ++ " - no bounds applied"
  else if term == "secure" then
    "Interpreted as " ++ qt "basic auth only" ++ " - minimal security"
  else "Interpreted " ++ qt term ++ " in the most permissive way possible"

/-- The findings the per-item vague-term scan emits for one requirement item. -/
def vagueFindingsFor (req : Value) : List AdversarialFinding :=
  let reqText := pyStr req
  let reqLower := lowerStr reqText
  vagueTerms.filterMap (fun ts =>
    if strContains reqLower ts.1 then
      some { adversary := "Ambiguity Adversary", severity := .MEDIUM,
             issue := "Ambiguous term " ++ qt ts.1 ++ " in requirement",
             details := "Requirement: " ++ strTake reqText 100 ++ "...",
             misinterpretation := some (genMisinterpretation ts.1),
             suggested_defense := some ts.2,
             location := some ("requirement: " ++ strTake reqText 50) }
    else Option.none)

/-- `if k in spec: out.extend(spec[k])`: the items a list-typed section
contributes under Python iteration (absent key contributes nothing; a
non-iterable section value raises `TypeError`). -/
def sectionItems (spec : SpecDoc) (k : String) : Except PyErr (List Value) :=
  match docGet spec k with
  | Option.none => .ok []
  | some v => iterate v

/-- `AmbiguityAdversary._check_requirements`: collect
`functional_requirements` and `non_functional_requirements` via
`list.extend` (Python iteration — may raise on a non-iterable section
value), then scan every collected item for each vague term. -/
def checkRequirements (spec : SpecDoc) : Except PyErr (List AdversarialFinding) :=
  (sectionItems spec "functional_requirements").bind (fun frs =>
  (sectionItems spec "non_functional_requirements").bind (fun nfrs =>
  .ok ((frs ++ nfrs).flatMap vagueFindingsFor)))

/-- `AmbiguityAdversary._check_boundaries`. -/
def checkBoundaries (spec : SpecDoc) : List AdversarialFinding :=
  let t := specRepr spec
  let numericHit := searchWordCI ["number", "count", "size", "length", "amount", "quantity"] t
  let boundsHit := strContains t "min" || strContains t "max" || strContains t "between" ||
    strContains t "less than" || strContains t "greater than" || t.data.any Char.isDigit
  (if numericHit && !boundsHit then
    [{ adversary := "Ambiguity Adversary", severity := .HIGH,
       issue := "Unbounded numeric values",
       details := "Numeric values mentioned without limits",
       misinterpretation := some "Could accept 0, negative, or extremely large values",
       suggested_defense := some "Specify min/max bounds for all numeric inputs" }]
   else []) ++
  ["soon", "quickly", "eventually", "periodically", "regularly"].filterMap (fun term =>
    if strContains (lowerStr t) term then
      some { adversary := "Ambiguity Adversary", severity := .MEDIUM,
             issue := "Vague time reference: " ++ qt term,
             details := "Time constraint is not specific",
             misinterpretation := some "Could mean milliseconds or days",
             suggested_defense := some ("Specify exact time limits (e.g., " ++
               qt "within 5 seconds" ++ ")") }
    else Option.none)

/-- `AmbiguityAdversary._check_error_handling`. -/
def checkErrorHandlingAmb (spec : SpecDoc) : List AdversarialFinding :=
  let t := specTextLower spec
  if strContains t "error" || strContains t "exception" then
    ["handle appropriately", "deal with errors", "manage exceptions"].filterMap (fun term =>
      if strContains t term then
        some { adversary := "Ambiguity Adversary", severity := .MEDIUM,
               issue := "Vague error handling",
               details := "Error handling specified as " ++ qt term,
               misinterpretation := some "Could ignore errors or crash application",
               suggested_defense :=
                 some "Specify exact error handling: log, retry, fallback, etc." }
      else Option.none)
  else []

/-- `AmbiguityAdversary.attack_spec`: requirements scan (fallible), then
boundary and error-handling checks, findings in call order. -/
def ambiguityAttack (spec : SpecDoc) : Except PyErr (List AdversarialFinding) :=
  (checkRequirements spec).bind (fun reqF =>
    .ok (reqF ++ checkBoundaries spec ++ checkErrorHandlingAmb spec))

/-- `ImplementationAdversary._check_edge_cases`. -/
def checkEdgeCases (spec : SpecDoc) : List AdversarialFinding :=
  let t := specTextLower spec
  (if (strContains t "create" || strContains t "add") && !(strContains t "duplicate") then
    [{ adversary := "Implementation Adversary", severity := .MEDIUM,
       issue := "Unspecified duplicate handling",
       details := "Creation operation without duplicate policy",
       misinterpretation := some "Allow duplicate creation, causing data inconsistency",
       suggested_defense := some "Specify behavior for duplicate creation attempts" }]
   else []) ++
  (if (strContains t "delete" || strContains t "remove") &&
      !(strContains t "not found") && !(strContains t "not exist") then
    [{ adversary := "Implementation Adversary", severity := .MEDIUM,
       issue := "Unspecified missing resource handling",
       details := "Delete operation without " ++ qt "not found" ++ " behavior",
       misinterpretation := some "Silent failure or crash on missing resource",
       suggested_defense := some "Specify behavior when deleting non-existent items" }]
   else []) ++
  (if (strContains t "list" || strContains t "query") &&
      !(strContains t "empty") && !(strContains t "no results") then
    [{ adversary := "Implementation Adversary", severity := .LOW,
       issue := "Unspecified empty result handling",
       details := "Query operation without empty result specification",
       misinterpretation := some "Return null instead of empty array",
       suggested_defense := some "Specify response format for empty results" }]
   else [])

/-- `ImplementationAdversary._check_race_conditions`. -/
def checkRaceConditions (spec : SpecDoc) : List AdversarialFinding :=
  let t := specTextLower spec
  let hasConcurrency := ["concurrent", "parallel", "simultaneous", "multiple users"].any
    (fun a => strContains t a)
  let hasSync := ["lock", "mutex", "synchronize", "atomic", "transaction"].any
    (fun a => strContains t a)
  (if hasConcurrency && !hasSync then
    [{ adversary := "Implementation Adversary", severity := .HIGH,
       issue := "Race condition risk",
       details := "Concurrent operations without synchronization",
       misinterpretation := some "Implement without thread safety",
       suggested_defense := some "Specify locking/transaction requirements" }]
   else []) ++
  (if strContains t "update" && (strContains t "based on" || strContains t "if") &&
      !(strContains t "atomic") && !(strContains t "transaction") then
    [{ adversary := "Implementation Adversary", severity := .HIGH,
       issue := "Non-atomic read-modify-write",
       details := "Conditional update without atomicity requirement",
       misinterpretation := some "Implement with separate read and write operations",
       suggested_defense := some "Require atomic compare-and-swap or transactions" }]
   else [])

/-- `ImplementationAdversary._check_state_management`. -/
def checkStateManagement (spec : SpecDoc) : List AdversarialFinding :=
  let t := specTextLower spec
  let hasState := ["status", "state", "workflow", "lifecycle"].any (fun a => strContains t a)
  if hasState then
    let hasTransitions := ["transition", "valid states", "state machine", "allowed"].any
      (fun a => strContains t a)
    if !hasTransitions then
      [{ adversary := "Implementation Adversary", severity := .MEDIUM,
         issue := "Undefined state transitions",
         details := "Stateful system without transition rules",
         misinterpretation := some "Allow any state transition",
         suggested_defense := some "Define valid states and allowed transitions" }]
    else []
  else []

/-- `ImplementationAdversary._check_error_recovery`. -/
def checkErrorRecovery (spec : SpecDoc) : List AdversarialFinding :=
  let t := specTextLower spec
  if strContains t "error" || strContains t "fail" then
    let hasRecovery := ["retry", "rollback", "recover", "fallback", "compensate"].any
      (fun a => strContains t a)
    if !hasRecovery then
      [{ adversary := "Implementation Adversary", severity := .HIGH,
         issue := "No error recovery specified",
         details := "Error conditions without recovery strategy",
         misinterpretation := some "Crash or leave system in inconsistent state",
         suggested_defense := some "Specify recovery actions for each error scenario" }]
    else []
  else []

/-- `ImplementationAdversary.attack_spec`. -/
def implementationAttack (spec : SpecDoc) : List AdversarialFinding :=
  checkEdgeCases spec ++ checkRaceConditions spec ++ checkStateManagement spec ++
    checkErrorRecovery spec

/-- `PerformanceAdversary._check_unbounded_operations`. -/
def checkUnboundedOperations (spec : SpecDoc) : List AdversarialFinding :=
  let t := specTextLower spec
  (if (strContains t "list" || strContains t "search" || strContains t "query") &&
      !(strContains t "limit") && !(strContains t "page") && !(strContains t "pagination") then
    [{ adversary := "Performance Adversary", severity := .HIGH,
       issue := "Unbounded query results",
       details := "List/search operation without result limits",
       attack_vector := some "Memory exhaustion with large result sets",
       suggested_defense := some "Add pagination or result limit requirements" }]
   else []) ++
  (if (strContains t "for each" || strContains t "iterate" || strContains t "process all") &&
      !(strContains t "timeout") && !(strContains t "limit") then
    [{ adversary := "Performance Adversary", severity := .MEDIUM,
       issue := "Unbounded iteration",
       details := "Iteration without limits or timeout",
       attack_vector := some "CPU exhaustion with large datasets",
       suggested_defense := some "Add iteration limits or processing timeouts" }]
   else [])

/-- `PerformanceAdversary._check_resource_limits`. -/
def checkResourceLimits (spec : SpecDoc) : List AdversarialFinding :=
  let t := specTextLower spec
  (if (strContains t "upload" || strContains t "file") &&
      !(strContains t "size limit") && !(strContains t "max size") then
    [{ adversary := "Performance Adversary", severity := .HIGH,
       issue := "Unlimited file uploads",
       details := "File handling without size restrictions",
       attack_vector := some "Disk space exhaustion",
       suggested_defense := some "Specify maximum file size and total storage limits" }]
   else []) ++
  (if (strContains t "api" || strContains t "endpoint") &&
      !(strContains t "rate limit") && !(strContains t "throttle") then
    [{ adversary := "Performance Adversary", severity := .MEDIUM,
       issue := "No rate limiting specified",
       details := "API endpoints without rate limits",
       attack_vector := some "DoS through request flooding",
       suggested_defense := some "Add rate limiting requirements per user/IP" }]
   else [])

/-- `PerformanceAdversary._check_caching_needs`. -/
def checkCachingNeeds (spec : SpecDoc) : List AdversarialFinding :=
  let t := specTextLower spec
  let hasExpensive := ["calculate", "compute", "aggregate", "report", "analytics"].any
    (fun a => strContains t a)
  if hasExpensive && !(strContains t "cache") then
    [{ adversary := "Performance Adversary", severity := .MEDIUM,
       issue := "Expensive operations without caching",
       details := "Computational operations without cache strategy",
       attack_vector := some "Performance degradation under load",
       suggested_defense := some "Specify caching requirements for expensive operations" }]
  else []

/-- `PerformanceAdversary._check_pagination`. -/
def checkPagination (spec : SpecDoc) : List AdversarialFinding :=
  let t := specTextLower spec
  if strContains t "pagination" || strContains t "page" then
    if strContains t "offset" && strContains t "large" then
      [{ adversary := "Performance Adversary", severity := .LOW,
         issue := "Offset pagination for large datasets",
         details := "Offset-based pagination becomes slow with large offsets",
         attack_vector := some "Performance degradation on deep pages",
         suggested_defense := some "Consider cursor-based pagination for large datasets" }]
    else []
  else []

/-- `PerformanceAdversary.attack_spec`. -/
def performanceAttack (spec : SpecDoc) : List AdversarialFinding :=
  checkUnboundedOperations spec ++ checkResourceLimits spec ++ checkCachingNeeds spec ++
    checkPagination spec

/-- The `ComplianceAdversary.regulations` table (values, in insertion order). -/
def regulationTerms : List (List String) :=
  [["personal data", "eu", "europe", "privacy", "consent", "right to be forgotten"],
   ["credit card", "payment card", "card number", "cvv", "payment"],
   ["health", "medical", "patient", "diagnosis", "prescription"],
   ["security", "availability", "confidentiality", "privacy"],
   ["california", "personal information", "consumer privacy"]]

/-- `ComplianceAdversary._check_data_retention`. -/
def checkDataRetention (spec : SpecDoc) : List AdversarialFinding :=
  let t := specTextLower spec
  if regulationTerms.any (fun terms => terms.any (fun term => strContains t term)) then
    if !(strContains t "retention") && !(strContains t "delete") then
      [{ adversary := "Compliance Adversary", severity := .HIGH,
         issue := "Missing data retention policy",
         details := "Personal data handled without retention/deletion policy",
         attack_vector := some "Compliance violations, legal liability",
         suggested_defense := some "Specify data retention periods and deletion procedures" }]
    else []
  else []

/-- `ComplianceAdversary._check_audit_requirements`. -/
def checkAuditRequirements (spec : SpecDoc) : List AdversarialFinding :=
  let t := specTextLower spec
  let hasOperations := ["delete", "modify", "access", "view", "export"].any
    (fun a => strContains t a)
  if hasOperations && !(strContains t "audit") && !(strContains t "log") then
    [{ adversary := "Compliance Adversary", severity := .MEDIUM,
       issue := "Missing audit trail requirements",
       details := "Sensitive operations without audit logging",
       attack_vector := some "Unable to detect or investigate breaches",
       suggested_defense := some "Add audit logging for all data operations" }]
  else []

/-- `ComplianceAdversary._check_consent_management`. -/
def checkConsentManagement (spec : SpecDoc) : List AdversarialFinding :=
  let t := specTextLower spec
  if strContains t "personal" || strContains t "user data" then
    if !(strContains t "consent") then
      [{ adversary := "Compliance Adversary", severity := .HIGH,
         issue := "No consent management",
         details := "Personal data collection without consent mechanism",
         attack_vector := some "GDPR violations, fines",
         suggested_defense := some "Add explicit consent collection and management" }]
    else []
  else []

/-- `ComplianceAdversary._check_data_portability`. -/
def checkDataPortability (spec : SpecDoc) : List AdversarialFinding :=
  let t := specTextLower spec
  if strContains t "user" && strContains t "data" then
    if !(strContains t "export") && !(strContains t "download") then
      [{ adversary := "Compliance Adversary", severity := .MEDIUM,
         issue := "No data portability mechanism",
         details := "User data without export functionality",
         attack_vector := some "GDPR Article 20 violation",
         suggested_defense := some "Add data export functionality in machine-readable format" }]
    else []
  else []

/-- `ComplianceAdversary.attack_spec`. -/
def complianceAttack (spec : SpecDoc) : List AdversarialFinding :=
  checkDataRetention spec ++ checkAuditRequirements spec ++ checkConsentManagement spec ++
    checkDataPortability spec

/-- The `AdversarialReport` dataclass.  `spec_name` is kept as a raw value:
the source stores `spec.get('metadata', \x7b\x7d).get('name', 'unknown')`
without coercion.  `findings_by_adversary` is an insertion-ordered dict. -/
structure AdversarialReport where
  spec_name : Value
  total_findings : Nat
  critical_findings : Nat
  findings_by_adversary : List (String × List AdversarialFinding)
  defended_spec_changes : List (String × String × String)
  approval_status : String
  human_review_required : Bool

/-- `AdversarialReviewOrchestrator._generate_defenses`: one
`(issue, change, severity.value)` entry per finding whose
`suggested_defense` is truthy (neither `None` nor the empty string),
in finding order. -/
def generateDefenses (findings : List AdversarialFinding) : List (String × String × String) :=
  findings.filterMap (fun f =>
    match f.suggested_defense with
    | some d => if d == "" then Option.none else some (f.issue, d, f.severity.value)
    | Option.none => Option.none)

/-- Registration order of the five adversaries
(`AdversarialReviewOrchestrator.__init__`). -/
def registrationOrder : List String :=
  ["Security Adversary", "Ambiguity Adversary", "Implementation Adversary",
   "Performance Adversary", "Compliance Adversary"]

/-- The attack task of each registered adversary, in registration order.
Attacks whose source cannot raise are total functions wrapped in `.ok`. -/
def adversaryTasks (spec : SpecDoc) : List (Except PyErr (List AdversarialFinding)) :=
  [.ok (securityAttack spec), ambiguityAttack spec, .ok (implementationAttack spec),
   .ok (performanceAttack spec), .ok (complianceAttack spec)]

/-- Completion events of an `asyncio.gather`: the scheduler finishes task
`i` at the moment `sched` lists `i`; each event carries that task's result. -/
def completionEvents (tasks : List α) (sched : List Nat) : List (Nat × α) :=
  sched.filterMap (fun i => (tasks.get? i).map (fun t => (i, t)))

/-- `asyncio.gather` re-assembles results by task index (argument order),
regardless of the order in which completions arrive. -/
def gatherModel (tasks : List α) (sched : List Nat) : List α :=
  (List.range tasks.length).filterMap (fun i => (completionEvents tasks sched).lookup i)

/-- Sequence a list of fallible results, propagating the first error in list
order.  (Applied after `gatherModel`, so "first" means lowest registration
index; in the source at most one adversary can raise, so the choice of which
of several simultaneous exceptions `asyncio.gather` propagates is moot.) -/
def seqE : List (Except PyErr α) → Except PyErr (List α)
  | [] => .ok []
  | x :: xs => x.bind (fun a => (seqE xs).bind (fun as_ => .ok (a :: as_)))

/-- `AdversarialReviewOrchestrator.run_review` on an already-loaded document,
with the concurrency scheduler made explicit: `sched` is the order in which
the five adversary tasks complete.  The merge itself follows the source:
findings are keyed and concatenated in registration order via
`zip(self.adversaries, findings_lists)`. -/
def runReviewSched (spec : SpecDoc) (sched : List Nat) : Except PyErr AdversarialReport :=
  (seqE (gatherModel (adversaryTasks spec) sched)).bind (fun findingsLists =>
  (getMetaName spec).bind (fun specName =>
    let allFindings := findingsLists.flatten
    let criticalCount : Nat := (findingsLists.map (fun fs => fs.countP isCritical)).sum
    let approvalStatus :=
      if criticalCount > 0 then "BLOCKED - Critical findings must be addressed"
      else if allFindings.length > 10 then "NEEDS_REVIEW - Too many findings"
      else if allFindings.length > 0 then "CONDITIONAL - Address findings before implementation"
      else "APPROVED - No significant issues found"
    .ok { spec_name := specName,
          total_findings := allFindings.length,
          critical_findings := criticalCount,
          findings_by_adversary := registrationOrder.zip findingsLists,
          defended_spec_changes := generateDefenses allFindings,
          approval_status := approvalStatus,
          human_review_required := criticalCount > 0 || allFindings.length > 5 }))

/-- `run_review` as observed: `asyncio.gather` delivers results in argument
order, i.e. the registration-order schedule. -/
def runReview (spec : SpecDoc) : Except PyErr AdversarialReport :=
  runReviewSched spec (List.range 5)

/-- The decision policy of `run_review` (spec §4.4 `decide`), as a pure
function of the merged finding list: the approval-status string and the
human-review flag computed from the CRITICAL count and the total. -/
def decidePolicy (findings : List AdversarialFinding) : String × Bool :=
  let critical := findings.countP isCritical
  let total := findings.length
  (if critical > 0 then "BLOCKED - Critical findings must be addressed"
   else if total > 10 then "NEEDS_REVIEW - Too many findings"
   else if total > 0 then "CONDITIONAL - Address findings before implementation"
   else "APPROVED - No significant issues found",
   critical > 0 || total > 5)

/-- The `ValidationLevel` enum.  (`SYN` embeds the source member `SYNTAX(1)`.) -/
inductive ValidationLevel where
  | SYN
  | SEMANTIC
  | COVERAGE
  | CROSS_REFERENCE
deriving DecidableEq

/-- The `ValidationResult` dataclass. -/
structure ValidationResult where
  passed : Bool
  level : ValidationLevel
  errors : List String
  warnings : List String
  suggestions : List String
  ready_for_adversarial : Bool
deriving DecidableEq

/-- The validator's per-run context: the loaded document, the sibling
documents `_load_existing_specs` would read from disk (external I/O, supplied
as context), and the final component of `spec_path` (for `.suffix`/`.name`). -/
structure Ctx where
  spec : SpecDoc
  siblings : List SpecDoc
  fileName : String

/-- `self.spec_path.suffix == '.yaml'`. -/
def ctxIsYaml (ctx : Ctx) : Bool := pathSuffix ctx.fileName == ".yaml"

/-- The required-section errors of `validate_level_1_syntax`:
`section not in spec or not spec[section]`. -/
def requiredSectionErrors (spec : SpecDoc) : List String :=
  ["user_stories", "functional_requirements", "acceptance_criteria"].filterMap (fun sec =>
    match docGet spec sec with
    | Option.none => some ("Missing required section: " ++ sec)
    | some v => if pyFalsy v then some ("Missing required section: " ++ sec) else Option.none)

/-- The requirement-ID warnings of `validate_level_1_syntax`:
`enumerate(spec['functional_requirements'])` (Python iteration — fallible),
warning for each string item not starting with `FR-`. -/
def level1IdWarnings (spec : SpecDoc) : Except PyErr (List String) :=
  match docGet spec "functional_requirements" with
  | Option.none => .ok []
  | some v =>
    (iterate v).bind (fun reqs => .ok (reqs.enum.filterMap (fun ir =>
      match ir.2 with
      | Value.str s =>
        if !(s.startsWith "FR-") then
          some ("Requirement " ++ toString (ir.1 + 1) ++ " should have ID format " ++ qt "FR-X")
        else Option.none
      | _ => Option.none)))

/-- The empty-section warnings of `validate_level_1_syntax`: one per item
whose value is a list of length 0, in insertion order. -/
def emptySectionWarnings (spec : SpecDoc) : List String :=
  spec.filterMap (fun kv =>
    match kv.2 with
    | Value.list [] => some ("Empty section: " ++ kv.1)
    | _ => Option.none)

/-- The YAML-structure warnings of `validate_level_1_syntax`. -/
def yamlWarnings (ctx : Ctx) : List String :=
  if ctxIsYaml ctx then
    (if hasKey ctx.spec "apiVersion" then [] else ["Missing apiVersion field"]) ++
    (if hasKey ctx.spec "metadata" then [] else ["Missing metadata section"])
  else []

/-- `DefenseInDepthValidator.validate_level_1_syntax`. -/
def validateLevel1 (ctx : Ctx) : Except PyErr ValidationResult :=
  let errors := requiredSectionErrors ctx.spec
  (level1IdWarnings ctx.spec).bind (fun idWarnings =>
    let warnings := idWarnings ++ emptySectionWarnings ctx.spec ++ yamlWarnings ctx
    .ok { passed := errors.isEmpty, level := .SYN, errors := errors, warnings := warnings,
          suggestions :=
            if warnings.isEmpty then []
            else ["Consider using the formal YAML template for better structure"],
          ready_for_adversarial := false })

/-- `_extract_keywords`: `\b[a-z]+\b` words of length > 3 from each story's
lower-cased text, deduplicated (`list(set(...))`; only membership is used). -/
def extractKeywords (stories : List Value) : List String :=
  dedupFirst (stories.flatMap (fun st =>
    (findLowerWords (lowerStr (pyStr st))).filter (fun w => 3 < w.length)))

/-- The traceability warnings of `validate_level_2_semantic`: requirements
sharing no keyword with any user story. -/
def traceWarnings (spec : SpecDoc) : Except PyErr (List String) :=
  match docGet spec "user_stories", docGet spec "functional_requirements" with
  | some us, some fr =>
    (iterate us).bind (fun stories =>
      let keywords := extractKeywords stories
      (iterate fr).bind (fun reqs => .ok (reqs.filterMap (fun req =>
        let reqText := pyStr req
        if keywords.any (fun k => strContains (lowerStr reqText) k) then Option.none
        else some ("Requirement " ++ String.singleton squote ++ strTake reqText 50 ++ "..." ++
          String.singleton squote ++ " may not trace to user stories")))))
  | _, _ => .ok []

/-- `_requirements_conflict`: a contradictory word pair split across the two
texts, together with a shared sameness term. -/
def requirementsConflict (req1 req2 : Value) : Bool :=
  let t1 := lowerStr (pyStr req1)
  let t2 := lowerStr (pyStr req2)
  [("must", "must not"), ("always", "never"), ("required", "optional"),
   ("synchronous", "asynchronous")].any (fun wp =>
    strContains t1 wp.1 && strContains t2 wp.2 &&
      ["same", "identical", "equal"].any (fun term =>
        strContains t1 term && strContains t2 term))

/-- The pairwise conflict errors over an indexed requirement list. -/
def conflictPairs (items : List Value) : List String :=
  items.enum.flatMap (fun ir1 =>
    items.enum.filterMap (fun ir2 =>
      if ir1.1 < ir2.1 && requirementsConflict ir1.2 ir2.2 then
        some ("Potential conflict between requirements " ++ toString (ir1.1 + 1) ++
          " and " ++ toString (ir2.1 + 1))
      else Option.none))

/-- The conflicting-requirement errors of `validate_level_2_semantic`, with
the Python dynamics of `enumerate(requirements)` and `requirements[i+1:]`:
list and string values index and slice; a nonempty dict raises on slicing;
other scalars raise on `enumerate`. -/
def semanticConflictErrors (spec : SpecDoc) : Except PyErr (List String) :=
  match docGetD spec "functional_requirements" (Value.list []) with
  | Value.list items => .ok (conflictPairs items)
  | Value.str s => .ok (conflictPairs (s.data.map (fun c => Value.str (String.singleton c))))
  | Value.dict d =>
    if d.isEmpty then .ok [] else .error (.typeError ("unhashable type: " ++ qt "slice"))
  | v => .error (.typeError (qt (typeName v) ++ " object is not iterable"))

/-- `_find_technical_terms`: acronyms (`[A-Z]\x7b2,\x7d`), `\w+API` and
`\w+Protocol` matches over `str(spec)`, deduplicated (`list(set(...))`;
the source's set order is unspecified, we fix first-occurrence order). -/
def findTechnicalTerms (spec : SpecDoc) : List String :=
  let text := specRepr spec
  dedupFirst (findAcronyms text ++ findallSuffix "API" text ++ findallSuffix "Protocol" text)

/-- Keep the terms with `term not in defined_terms` (Python `in`, fallible
on a non-iterable `definitions` value), in term order. -/
def filterUndefined (terms : List String) (defined : Value) : Except PyErr (List String) :=
  match terms with
  | [] => .ok []
  | t :: ts =>
    (pyIn t defined).bind (fun b =>
      (filterUndefined ts defined).bind (fun rest =>
        .ok (if b then rest else t :: rest)))

/-- The undefined-technical-term warnings and suggestions of
`validate_level_2_semantic`. -/
def technicalTermGaps (spec : SpecDoc) : Except PyErr (List String × List String) :=
  (filterUndefined (findTechnicalTerms spec)
      (docGetD spec "definitions" (Value.dict []))).bind (fun missing =>
    .ok (missing.map (fun t => "Technical term " ++ qt t ++ " is not defined"),
         missing.map (fun t => "Add definition for " ++ qt t ++ " in definitions section")))

/-- The sensitive-operations gate of `validate_level_2_semantic`: a sensitive
keyword in the full text with no `security_requirements` section. -/
def sensitiveGap (spec : SpecDoc) : Bool :=
  ["payment", "password", "auth", "credit", "personal", "private"].any
      (fun k => strContains (specTextLower spec) k) &&
    !(hasKey spec "security_requirements")

/-- `DefenseInDepthValidator.validate_level_2_semantic`. -/
def validateLevel2 (ctx : Ctx) : Except PyErr ValidationResult :=
  (traceWarnings ctx.spec).bind (fun tw =>
  (semanticConflictErrors ctx.spec).bind (fun ce =>
  (technicalTermGaps ctx.spec).bind (fun tg =>
    let errors := ce ++
      (if sensitiveGap ctx.spec then
        ["Spec involves sensitive operations but lacks security requirements"] else [])
    let suggestions := tg.2 ++
      (if sensitiveGap ctx.spec then
        ["Add security_requirements section with authentication, authorization, and encryption details"]
       else [])
    .ok { passed := errors.isEmpty, level := .SEMANTIC, errors := errors,
          warnings := tw ++ tg.1, suggestions := suggestions,
          ready_for_adversarial := false })))

/-- The story-coverage warnings of `validate_level_3_coverage`: user stories
whose lower-cased text occurs in no acceptance criterion.  Iterating a
non-iterable `user_stories` value raises; `acceptance_criteria` is only
iterated (inside `any(...)`) once at least one story exists. -/
def storyCoverageWarnings (spec : SpecDoc) : Except PyErr (List String) :=
  (iterate (docGetD spec "user_stories" (Value.list []))).bind (fun stories =>
    if stories.isEmpty then .ok []
    else
      (iterate (docGetD spec "acceptance_criteria" (Value.list []))).bind (fun crits =>
        .ok (stories.filterMap (fun st =>
          let stText := pyStr st
          if crits.any (fun c => strContains (lowerStr (pyStr c)) (lowerStr stText)) then
            Option.none
          else
            some ("User story may lack acceptance criteria: " ++ strTake stText 50 ++ "...")))))

/-- `_is_complex_spec`: at least two of the five complexity indicators hold
(`len` of a non-sized `functional_requirements` value raises `TypeError`). -/
def isComplexSpec (spec : SpecDoc) : Except PyErr Bool :=
  (pyLen (docGetD spec "functional_requirements" (Value.list []))).bind (fun frLen =>
    .ok (2 ≤ ([strContains (specTextLower spec) "database",
               strContains (specTextLower spec) "migration",
               strContains (specTextLower spec) "payment",
               decide (10 < frLen),
               strContains (specTextLower spec) "distributed"].countP (fun b => b))))

/-- `DefenseInDepthValidator.validate_level_3_coverage`. -/
def validateLevel3 (ctx : Ctx) : Except PyErr ValidationResult :=
  (storyCoverageWarnings ctx.spec).bind (fun sw =>
  (isComplexSpec ctx.spec).bind (fun cplx =>
    let t := specTextLower ctx.spec
    let hasErrorHandling := ["error", "fail", "invalid", "exception", "timeout"].any
      (fun k => strContains t k)
    let perfGap :=
      match docGet ctx.spec "non_functional_requirements" with
      | some v =>
        let nfrs := lowerStr (pyStr v)
        !(strContains nfrs "performance") && !(strContains nfrs "response time") &&
          !(strContains nfrs "latency")
      | Option.none => false
    let hasResourceLimits := ["memory", "cpu", "disk", "bandwidth", "connection"].any
      (fun k => strContains t k)
    let rollbackGap := cplx && !(strContains t "rollback")
    let errors :=
      (if !hasErrorHandling then ["No error conditions or failure scenarios defined"] else []) ++
      (if rollbackGap then ["Complex spec lacks rollback procedures"] else [])
    let warnings := sw ++
      (if perfGap then ["No performance requirements specified"] else []) ++
      (if !hasResourceLimits then ["No resource limits specified"] else [])
    let suggestions :=
      (if !hasErrorHandling then ["Add error handling requirements for each major operation"]
       else []) ++
      (if perfGap then ["Add performance bounds (response time, throughput, etc.)"] else []) ++
      (if !hasResourceLimits then ["Define resource constraints and limits"] else []) ++
      (if rollbackGap then ["Add rollback and recovery procedures"] else [])
    .ok { passed := errors.isEmpty, level := .COVERAGE, errors := errors, warnings := warnings,
          suggestions := suggestions, ready_for_adversarial := false }))

/-- `_extract_apis`: `re.findall(r'(GET|POST|PUT|DELETE|PATCH)\s+/[\w/]+', str(spec))`.
Because of the capturing group, `findall` yields only the HTTP method of each
match, not the full `METHOD /path` endpoint signature. -/
def extractApis (spec : SpecDoc) : List String :=
  let t := specRepr spec
  endpointScan t.data.length t.data

/-- Conflicts of the current apis against one sibling: one entry per current
"api" found in the sibling's "apis", in api order.  The sibling's metadata
name is read only when a conflict fires (and raises on a non-dict `metadata`). -/
def conflictsWithOne (currentApis : List String) (other : SpecDoc) :
    Except PyErr (List (Value × String)) :=
  let otherApis := extractApis other
  (currentApis.filter (fun api => otherApis.contains api)).foldr
    (fun api acc =>
      (getMetaName other).bind (fun nm =>
        acc.bind (fun rest => .ok ((nm, "Duplicate API endpoint: " ++ api) :: rest))))
    (.ok [])

/-- Conflicts against every sibling, in sibling order. -/
def conflictsWithAll (currentApis : List String) : List SpecDoc →
    Except PyErr (List (Value × String))
  | [] => .ok []
  | other :: rest =>
    (conflictsWithOne currentApis other).bind (fun cs =>
      (conflictsWithAll currentApis rest).bind (fun more => .ok (cs ++ more)))

/-- `_check_spec_conflicts`: the current document's extracted "apis" checked
against every sibling document's. -/
def checkSpecConflicts (spec : SpecDoc) (siblings : List SpecDoc) :
    Except PyErr (List (Value × String)) :=
  conflictsWithAll (extractApis spec) siblings

/-- `_is_update_to_existing`. -/
def isUpdateToExisting (ctx : Ctx) : Bool :=
  strContains (lowerStr ctx.fileName) "update" || strContains (lowerStr ctx.fileName) "v2" ||
    strContains (specTextLower ctx.spec) "migration" ||
    strContains (specTextLower ctx.spec) "deprecate"

/-- `DefenseInDepthValidator.validate_level_4_cross_reference`. -/
def validateLevel4 (ctx : Ctx) : Except PyErr ValidationResult :=
  (checkSpecConflicts ctx.spec ctx.siblings).bind (fun conflicts =>
    let interfaceGap :=
      (hasKey ctx.spec "interfaces" || strContains (specTextLower ctx.spec) "api") &&
        !(hasKey ctx.spec "api_contracts") && !(hasKey ctx.spec "interface_definitions")
    let depGap := !(hasKey ctx.spec "dependencies")
    let compatGap := isUpdateToExisting ctx &&
      !(hasKey ctx.spec "backwards_compatibility") && !(hasKey ctx.spec "breaking_changes")
    let errors :=
      conflicts.map (fun c => "Conflict with " ++ pyStr c.1 ++ ": " ++ c.2) ++
      (if interfaceGap then ["Spec mentions interfaces/APIs but lacks proper definitions"]
       else []) ++
      (if compatGap then ["Update to existing system lacks backwards compatibility analysis"]
       else [])
    let suggestions :=
      (if interfaceGap then ["Add api_contracts or interface_definitions section"] else []) ++
      (if depGap then ["Add dependencies section listing all external systems and libraries"]
       else []) ++
      (if compatGap then
        ["Add backwards_compatibility section or explicitly list breaking_changes"] else [])
    .ok { passed := errors.isEmpty, level := .CROSS_REFERENCE, errors := errors,
          warnings := if depGap then ["No explicit dependencies stated"] else [],
          suggestions := suggestions, ready_for_adversarial := errors.isEmpty })

/-- `DefenseInDepthValidator.run_progressive_validation`: the four levels in
order, recording each attempted level's result and stopping at the first
result that did not pass. -/
def runProgressiveValidation (ctx : Ctx) :
    Except PyErr (List (ValidationLevel × ValidationResult)) :=
  (validateLevel1 ctx).bind (fun r1 =>
    if r1.passed = false then .ok [(.SYN, r1)] else
    (validateLevel2 ctx).bind (fun r2 =>
      if r2.passed = false then .ok [(.SYN, r1), (.SEMANTIC, r2)] else
      (validateLevel3 ctx).bind (fun r3 =>
        if r3.passed = false then .ok [(.SYN, r1), (.SEMANTIC, r2), (.COVERAGE, r3)] else
        (validateLevel4 ctx).bind (fun r4 =>
          .ok [(.SYN, r1), (.SEMANTIC, r2), (.COVERAGE, r3), (.CROSS_REFERENCE, r4)]))))

/-- Inversion for `Except.bind` returning a success. -/
theorem exceptBindOk {α β : Type} {x : Except PyErr α} {f : α → Except PyErr β} {b : β} :
    x.bind f = .ok b ↔ ∃ a, x = .ok a ∧ f a = .ok b := by
  cases x <;> simp [Except.bind]

/-- An event list holds each finished task under its registration index. -/
theorem completionEvents_lookup {α : Type} (tasks : List α) (sched : List Nat) (i : Nat)
    (hi : i < tasks.length) (hmem : i ∈ sched) :
    (completionEvents tasks sched).lookup i = tasks[i]? := by
  induction sched with
  | nil => cases hmem
  | cons j s ih =>
    rcases List.mem_cons.mp hmem with h | h
    · subst h
      have : tasks[i]? = some (tasks[i]) := List.getElem?_eq_getElem hi
      simp [completionEvents, List.filterMap_cons, this, List.lookup]
    · by_cases hij : i = j
      · subst hij
        have : tasks[i]? = some (tasks[i]) := List.getElem?_eq_getElem hi
        simp [completionEvents, List.filterMap_cons, this, List.lookup]
      · cases hj : tasks[j]? with
        | none => simpa [completionEvents, List.filterMap_cons, hj] using ih h
        | some t =>
          have := ih h
          simp [completionEvents, List.filterMap_cons, hj, List.lookup,
            beq_eq_false_iff_ne.mpr hij]
          simpa [completionEvents] using this

/-- Reading a list back out by index reproduces the list. -/
theorem filterMap_range_getElem {α : Type} (l : List α) :
    (List.range l.length).filterMap (fun i => l[i]?) = l := by
  induction l with
  | nil => simp
  | cons a t ih =>
    have h0 : (List.range (t.length + 1)) = 0 :: (List.range t.length).map Nat.succ :=
      List.range_succ_eq_map t.length
    rw [List.length_cons, h0]
    simp only [List.filterMap_cons, List.getElem?_cons_zero, List.filterMap_map]
    congr 1
    calc List.filterMap ((fun i => (a :: t)[i]?) ∘ Nat.succ) (List.range t.length)
        = List.filterMap (fun i => t[i]?) (List.range t.length) := by
          apply List.filterMap_congr
          intro i _
          simp [Function.comp, List.getElem?_cons_succ]
      _ = t := ih

/-- If the schedule finishes every task, the gathered result list is the task
list itself — completion order does not influence the gathered order. -/
theorem gatherModel_eq {α : Type} (tasks : List α) (sched : List Nat)
    (h : ∀ i, i < tasks.length → i ∈ sched) : gatherModel tasks sched = tasks := by
  unfold gatherModel
  calc (List.range tasks.length).filterMap (fun i => (completionEvents tasks sched).lookup i)
      = (List.range tasks.length).filterMap (fun i => tasks[i]?) := by
        apply List.filterMap_congr
        intro i hi
        exact completionEvents_lookup tasks sched i (List.mem_range.mp hi)
          (h i (List.mem_range.mp hi))
    _ = tasks := filterMap_range_getElem tasks

/-- Summing per-list CRITICAL counts equals counting over the merged list. -/
theorem sum_countP_eq_countP_flatten (ls : List (List AdversarialFinding)) :
    (ls.map (fun fs => fs.countP isCritical)).sum = ls.flatten.countP isCritical := by
  induction ls with
  | nil => simp
  | cons a t ih => rw [List.map_cons, List.sum_cons, List.flatten_cons, List.countP_append, ih]

/-- `seqE` on the five adversary tasks (only the second can fail). -/
theorem seqE_tasks (a b c d : List AdversarialFinding)
    (x : Except PyErr (List AdversarialFinding)) :
    seqE [.ok a, x, .ok b, .ok c, .ok d] = x.bind (fun f2 => .ok [a, f2, b, c, d]) := by
  cases x <;> rfl

/-- Elimination form for a successful `runReview`: the report is assembled
from five per-adversary finding lists, keyed in registration order, with all
aggregate fields computed from their concatenation. -/
theorem runReview_ok_elim {spec : SpecDoc} {r : AdversarialReport}
    (h : runReview spec = .ok r) :
    ∃ ls : List (List AdversarialFinding), ls.length = 5 ∧
      r.findings_by_adversary = registrationOrder.zip ls ∧
      r.total_findings = ls.flatten.length ∧
      r.critical_findings = ls.flatten.countP isCritical ∧
      r.defended_spec_changes = generateDefenses ls.flatten ∧
      r.approval_status = (decidePolicy ls.flatten).1 ∧
      r.human_review_required = (decidePolicy ls.flatten).2 := by
  unfold runReview runReviewSched at h
  rw [gatherModel_eq (adversaryTasks spec) (List.range 5)
      (by intro i hi; exact List.mem_range.mpr (by simpa [adversaryTasks] using hi))] at h
  unfold adversaryTasks at h
  rw [seqE_tasks] at h
  rcases hamb : ambiguityAttack spec with e | ambF
  · rw [hamb] at h; cases h
  rw [hamb] at h
  simp only [Except.bind] at h
  rcases hnm : getMetaName spec with e | nm
  · rw [hnm] at h; cases h
  rw [hnm] at h
  simp only [Except.bind, Except.ok.injEq] at h
  refine ⟨[securityAttack spec, ambF, implementationAttack spec, performanceAttack spec,
    complianceAttack spec], rfl, ?_⟩
  subst h
  simp [decidePolicy, sum_countP_eq_countP_flatten]

/-- A representative LOW finding. -/
def lowFinding : AdversarialFinding :=
  { adversary := "Implementation Adversary", severity := .LOW,
    issue := "Unspecified empty result handling",
    details := "Query operation without empty result specification" }

/-- A representative MEDIUM finding. -/
def mediumFinding : AdversarialFinding :=
  { adversary := "Ambiguity Adversary", severity := .MEDIUM,
    issue := "Vague time reference: " ++ qt "soon",
    details := "Time constraint is not specific" }

/-- A representative CRITICAL finding. -/
def criticalFinding : AdversarialFinding :=
  { adversary := "Security Adversary", severity := .CRITICAL,
    issue := "Command injection risk", details := "Spec involves command execution" }

/-- C1: the decision policy is a pure function of the merged finding list:
CRITICAL count > 0 gives BLOCKED, else total > 10 gives NEEDS_REVIEW, else
total > 0 gives CONDITIONAL, else APPROVED; `human_review_required` holds
exactly when the CRITICAL count is positive or the total exceeds 5.  The
four table rows of the claim are instantiated (eleven LOW findings, three
MEDIUM findings, the empty list, and any list containing a CRITICAL
finding), and a successful `run_review` report carries exactly this policy
of its own merged finding list (the concatenation of the
`findings_by_adversary` values).  The status strings carry the source's
trailing explanations; BLOCKED etc. name their prefixes. -/
theorem C1_decision_policy :
    (∀ fs : List AdversarialFinding,
      (0 < fs.countP isCritical →
        decidePolicy fs = ("BLOCKED - Critical findings must be addressed", true)) ∧
      (fs.countP isCritical = 0 → 10 < fs.length →
        decidePolicy fs = ("NEEDS_REVIEW - Too many findings", true)) ∧
      (fs.countP isCritical = 0 → fs.length ≤ 10 → 0 < fs.length →
        decidePolicy fs =
          ("CONDITIONAL - Address findings before implementation", decide (5 < fs.length))) ∧
      (fs.length = 0 →
        decidePolicy fs = ("APPROVED - No significant issues found", false)) ∧
      ((decidePolicy fs).2 = true ↔ 0 < fs.countP isCritical ∨ 5 < fs.length)) ∧
    decidePolicy [] = ("APPROVED - No significant issues found", false) ∧
    decidePolicy (List.replicate 11 lowFinding) = ("NEEDS_REVIEW - Too many findings", true) ∧
    decidePolicy (List.replicate 3 mediumFinding) =
      ("CONDITIONAL - Address findings before implementation", false) ∧
    (∀ (fs : List AdversarialFinding) (f : AdversarialFinding), f ∈ fs →
      f.severity = .CRITICAL →
      decidePolicy fs = ("BLOCKED - Critical findings must be addressed", true)) ∧
    (∀ (spec : SpecDoc) (r : AdversarialReport), runReview spec = .ok r →
      r.approval_status =
        (decidePolicy ((r.findings_by_adversary.map Prod.snd).flatten)).1 ∧
      r.human_review_required =
        (decidePolicy ((r.findings_by_adversary.map Prod.snd).flatten)).2) := by
  have hblock : ∀ fs : List AdversarialFinding, 0 < fs.countP isCritical →
      decidePolicy fs = ("BLOCKED - Critical findings must be addressed", true) := by
    intro fs hc
    unfold decidePolicy
    simp [hc]
  refine ⟨?_, by decide, by decide, by decide, ?_, ?_⟩
  · intro fs
    refine ⟨hblock fs, ?_, ?_, ?_, ?_⟩
    · intro hc ht
      have h5 : 5 < fs.length := by omega
      unfold decidePolicy
      simp [hc, ht, h5]
    · intro hc hle hpos
      unfold decidePolicy
      simp [hc, Nat.not_lt.mpr hle, hpos]
    · intro h0
      unfold decidePolicy
      have : fs = [] := List.length_eq_zero.mp h0
      subst this
      decide
    · unfold decidePolicy
      simp
  · intro fs f hmem hsev
    exact hblock fs (List.countP_pos_iff.mpr ⟨f, hmem, by simp [isCritical, hsev]⟩)
  · intro spec r h
    obtain ⟨ls, hlen, hfba, -, -, -, hstat, hhr⟩ := runReview_ok_elim h
    have hmap : (r.findings_by_adversary.map Prod.snd) = ls := by
      rw [hfba]
      exact List.map_snd_zip registrationOrder ls (by simp [registrationOrder, hlen])
    rw [hmap, hstat, hhr]
    exact ⟨rfl, rfl⟩

/-- Witness for C1 at concrete inputs: a singleton CRITICAL list is BLOCKED
with human review required. -/
theorem C1_decision_policy_witness :
    decidePolicy [criticalFinding] = ("BLOCKED - Critical findings must be addressed", true) :=
  C1_decision_policy.2.2.2.2.1 [criticalFinding] criticalFinding (by decide) (by decide)

/-- C3: deterministic merge.  The orchestrator's report is independent of the
order in which the five concurrently running adversaries complete (any
completion schedule that finishes all five tasks yields the report of the
registration-order schedule), and in every produced report the key order of
`findings_by_adversary` is exactly the fixed registration order
Security, Ambiguity, Implementation, Performance, Compliance — so two runs
over the same input produce identical reports regardless of scheduling. -/
theorem C3_deterministic_merge :
    ∀ (spec : SpecDoc) (sched : List Nat), sched.Perm (List.range 5) →
      runReviewSched spec sched = runReviewSched spec (List.range 5) ∧
      (∀ r : AdversarialReport, runReviewSched spec sched = .ok r →
        r.findings_by_adversary.map Prod.fst = registrationOrder) := by
  intro spec sched hperm
  have hmem : ∀ i, i < (adversaryTasks spec).length → i ∈ sched := by
    intro i hi
    exact hperm.mem_iff.mpr (List.mem_range.mpr (by simpa [adversaryTasks] using hi))
  have hmemR : ∀ i, i < (adversaryTasks spec).length → i ∈ List.range 5 := by
    intro i hi
    exact List.mem_range.mpr (by simpa [adversaryTasks] using hi)
  have heq : runReviewSched spec sched = runReviewSched spec (List.range 5) := by
    unfold runReviewSched
    rw [gatherModel_eq (adversaryTasks spec) sched hmem,
      gatherModel_eq (adversaryTasks spec) (List.range 5) hmemR]
  refine ⟨heq, ?_⟩
  intro r hr
  rw [heq] at hr
  obtain ⟨ls, hlen, hfba, -⟩ := runReview_ok_elim hr
  rw [hfba]
  exact List.map_fst_zip registrationOrder ls (by simp [registrationOrder, hlen])

/-- Witness for C3: a fully reversed completion schedule produces the same
report as the registration-order schedule on a concrete document. -/
theorem C3_deterministic_merge_witness :
    runReviewSched [] [4, 3, 2, 1, 0] = runReviewSched [] (List.range 5) :=
  (C3_deterministic_merge [] [4, 3, 2, 1, 0] (by decide)).1

/-- C10: internal consistency of every produced report.  `total_findings` is
the sum of the lengths of the per-adversary lists in `findings_by_adversary`,
`critical_findings` counts the CRITICAL findings among those same lists, and
`defended_spec_changes` has exactly one `(issue, change, severity)` entry per
merged finding with a truthy `suggested_defense`, in merged-list order. -/
theorem C10_report_consistency :
    ∀ (spec : SpecDoc) (r : AdversarialReport), runReview spec = .ok r →
      r.total_findings = ((r.findings_by_adversary.map Prod.snd).map List.length).sum ∧
      r.critical_findings =
        ((r.findings_by_adversary.map Prod.snd).flatten).countP isCritical ∧
      r.defended_spec_changes =
        generateDefenses ((r.findings_by_adversary.map Prod.snd).flatten) := by
  intro spec r h
  obtain ⟨ls, hlen, hfba, htot, hcrit, hdef, -, -⟩ := runReview_ok_elim h
  have hmap : (r.findings_by_adversary.map Prod.snd) = ls := by
    rw [hfba]
    exact List.map_snd_zip registrationOrder ls (by simp [registrationOrder, hlen])
  rw [hmap, htot, hcrit, hdef]
  exact ⟨List.length_flatten ls, rfl, rfl⟩

/-- Witness for C10: the report of the empty document satisfies the
consistency equations. -/
theorem C10_report_consistency_witness :
    ({ spec_name := Value.str "unknown", total_findings := 0,
       critical_findings := 0,
       findings_by_adversary := [("Security Adversary", []), ("Ambiguity Adversary", []),
         ("Implementation Adversary", []), ("Performance Adversary", []),
         ("Compliance Adversary", [])],
       defended_spec_changes := [],
       approval_status := "APPROVED - No significant issues found",
       human_review_required := false } : AdversarialReport).total_findings =
      (([("Security Adversary", ([] : List AdversarialFinding)), ("Ambiguity Adversary", []),
         ("Implementation Adversary", []), ("Performance Adversary", []),
         ("Compliance Adversary", [])].map Prod.snd).map List.length).sum :=
  (C10_report_consistency [] _ (by rfl)).1

/-- C8: the unconditional command-injection trigger.  For every document
whose normalized full text contains `"execute"`, the Security adversary's
output contains the CRITICAL "Command injection risk" finding — no other
content of the document can suppress it. -/
theorem C8_command_injection_trigger :
    ∀ spec : SpecDoc, strContains (specTextLower spec) "execute" = true →
      ({ adversary := "Security Adversary", severity := Severity.CRITICAL,
         issue := "Command injection risk",
         details := "Spec involves command execution",
         attack_vector := some "Remote code execution",
         suggested_defense :=
           some "Avoid shell commands; if required, specify strict input validation" } :
        AdversarialFinding) ∈ securityAttack spec := by
  intro spec h
  unfold securityAttack
  apply List.mem_append_left
  apply List.mem_append_right
  unfold checkInjectionRisks
  apply List.mem_append_right
  simp [h]

/-- Witness for C8: a concrete document mentioning `execute` receives the
CRITICAL command-injection finding. -/
theorem C8_command_injection_trigger_witness :
    ({ adversary := "Security Adversary", severity := Severity.CRITICAL,
       issue := "Command injection risk",
       details := "Spec involves command execution",
       attack_vector := some "Remote code execution",
       suggested_defense :=
         some "Avoid shell commands; if required, specify strict input validation" } :
      AdversarialFinding) ∈ securityAttack [("notes", Value.str "we execute commands")] :=
  C8_command_injection_trigger [("notes", Value.str "we execute commands")] (by decide)

/-- Every finding emitted by the per-item scan for one requirement is MEDIUM
and carries the guidance of a matched table term as `suggested_defense`. -/
theorem vagueFindingsFor_mem {req : Value} {f : AdversarialFinding}
    (h : f ∈ vagueFindingsFor req) :
    f.severity = Severity.MEDIUM ∧ ∃ ts ∈ vagueTerms,
      strContains (lowerStr (pyStr req)) ts.1 = true ∧
      f.issue = "Ambiguous term " ++ qt ts.1 ++ " in requirement" ∧
      f.suggested_defense = some ts.2 := by
  unfold vagueFindingsFor at h
  obtain ⟨ts, hts, heq⟩ := List.mem_filterMap.mp h
  by_cases hc : strContains (lowerStr (pyStr req)) ts.1 = true
  · rw [if_pos hc] at heq
    cases heq
    exact ⟨rfl, ts, hts, hc, rfl, rfl⟩
  · rw [if_neg (by simpa using hc)] at heq
    cases heq

/-- The sample requirement of the claim. -/
def fr1Req : String := "FR-1: The system should validate input in a reasonable time"

/-- C9: the per-item vague-term scan.  When the two requirement sections are
lists (or absent), `_check_requirements` scans exactly their concatenated
items and emits, per item and per vague-term table entry matched in the
item's lower-cased text, one MEDIUM finding carrying the table's guidance as
`suggested_defense`.  On the sample requirement the scan yields at least two
findings: one for `should` with guidance `Use 'MUST' for requirements` and
one for `reasonable` with guidance `Specify exact bounds`. -/
theorem C9_vague_term_scan :
    (∀ (spec : SpecDoc) (fr nfr : List Value),
      (docGet spec "functional_requirements" = Option.none ∧ fr = [] ∨
        docGet spec "functional_requirements" = some (Value.list fr)) →
      (docGet spec "non_functional_requirements" = Option.none ∧ nfr = [] ∨
        docGet spec "non_functional_requirements" = some (Value.list nfr)) →
      checkRequirements spec = .ok ((fr ++ nfr).flatMap vagueFindingsFor) ∧
      ∀ f ∈ (fr ++ nfr).flatMap vagueFindingsFor,
        f.severity = Severity.MEDIUM ∧ ∃ ts ∈ vagueTerms, f.suggested_defense = some ts.2) ∧
    (∃ l, checkRequirements [("functional_requirements", Value.list [Value.str fr1Req])] =
        .ok l ∧ 2 ≤ l.length ∧
      (∃ f ∈ l, f.issue = "Ambiguous term " ++ qt "should" ++ " in requirement" ∧
        f.severity = Severity.MEDIUM ∧
        f.suggested_defense = some ("Use " ++ qt "MUST" ++ " for requirements")) ∧
      (∃ f ∈ l, f.issue = "Ambiguous term " ++ qt "reasonable" ++ " in requirement" ∧
        f.severity = Severity.MEDIUM ∧
        f.suggested_defense = some "Specify exact bounds")) := by
  constructor
  · intro spec fr nfr hfr hnfr
    constructor
    · unfold checkRequirements sectionItems
      rcases hfr with ⟨hnone, hempty⟩ | hsome
      · rcases hnfr with ⟨hnone2, hempty2⟩ | hsome2
        · rw [hnone, hnone2]; subst hempty; subst hempty2; rfl
        · rw [hnone, hsome2]; subst hempty; rfl
      · rcases hnfr with ⟨hnone2, hempty2⟩ | hsome2
        · rw [hsome, hnone2]; subst hempty2; rfl
        · rw [hsome, hsome2]; rfl
    · intro f hf
      obtain ⟨req, -, hmem⟩ := List.mem_flatMap.mp hf
      obtain ⟨hsev, ts, hts, -, -, hdef⟩ := vagueFindingsFor_mem hmem
      exact ⟨hsev, ts, hts, hdef⟩
  · exact ⟨_, rfl, by decide, by decide, by decide⟩

/-- Witness for C9: the sample requirement list, with the section hypotheses
discharged at a concrete document. -/
theorem C9_vague_term_scan_witness :
    checkRequirements [("functional_requirements", Value.list [Value.str fr1Req])] =
      .ok (([Value.str fr1Req] ++ []).flatMap vagueFindingsFor) :=
  (C9_vague_term_scan.1 [("functional_requirements", Value.list [Value.str fr1Req])]
    [Value.str fr1Req] [] (Or.inr rfl) (Or.inl ⟨rfl, rfl⟩)).1

/-- C5 counterexample: a document whose `functional_requirements` section
holds the scalar `5` makes the Ambiguity adversary's requirement rule raise
`TypeError` (Python `list.extend(5)`), refuting the claim that every rule
treats a scalar-valued section as absent and completes normally. -/
theorem C5_counterexample :
    checkRequirements [("functional_requirements", Value.int 5)] =
      .error (.typeError (qt "int" ++ " object is not iterable")) ∧
    ¬ ∃ l, checkRequirements [("functional_requirements", Value.int 5)] = .ok l := by
  have h : checkRequirements [("functional_requirements", Value.int 5)] =
      .error (.typeError (qt "int" ++ " object is not iterable")) := rfl
  refine ⟨h, ?_⟩
  rintro ⟨l, hl⟩
  rw [h] at hl
  cases hl

/-- A single character never contains any vague-term table entry. -/
theorem vagueFindingsFor_singleton (c : Char) :
    vagueFindingsFor (Value.str (String.singleton c)) = [] := by
  simp [vagueFindingsFor, vagueTerms, pyStr, lowerStr, String.singleton, strContains,
    hasSub, headMatch]

/-- C5 amended: only a missing key is treated as an absent section.  A
non-iterable scalar section value (e.g. an integer) raises `TypeError`,
aborting the Ambiguity adversary's whole evaluation and likewise the SYNTAX
gate's requirement-ID loop; a scalar string section does not abort but is
iterated character by character (and no single character matches any vague
term, so it contributes no finding). -/
theorem C5_scalar_sections :
    (∀ (spec : SpecDoc) (n : Int),
      docGet spec "functional_requirements" = some (Value.int n) →
      checkRequirements spec = .error (.typeError (qt "int" ++ " object is not iterable"))) ∧
    (∀ (ctx : Ctx) (n : Int),
      docGet ctx.spec "functional_requirements" = some (Value.int n) →
      validateLevel1 ctx = .error (.typeError (qt "int" ++ " object is not iterable"))) ∧
    (∀ (spec : SpecDoc) (s : String),
      docGet spec "functional_requirements" = some (Value.str s) →
      docGet spec "non_functional_requirements" = Option.none →
      checkRequirements spec =
        .ok ((s.data.map (fun c => Value.str (String.singleton c))).flatMap
          vagueFindingsFor) ∧
      checkRequirements spec = .ok []) := by
  refine ⟨?_, ?_, ?_⟩
  · intro spec n h
    unfold checkRequirements sectionItems
    rw [h]
    rfl
  · intro ctx n h
    unfold validateLevel1 level1IdWarnings
    rw [h]
    rfl
  · intro spec s hfr hnfr
    have h1 : checkRequirements spec =
        .ok ((s.data.map (fun c => Value.str (String.singleton c))).flatMap
          vagueFindingsFor) := by
      unfold checkRequirements sectionItems
      rw [hfr, hnfr]
      simp [iterate, Except.bind]
    refine ⟨h1, ?_⟩
    rw [h1]
    congr 1
    induction s.data with
    | nil => rfl
    | cons c t ih => simp [vagueFindingsFor_singleton, ih]

/-- Witness for C5 amended: concrete scalar sections. -/
theorem C5_scalar_sections_witness :
    checkRequirements [("functional_requirements", Value.int 5)] =
      .error (.typeError (qt "int" ++ " object is not iterable")) ∧
    validateLevel1 ⟨[("functional_requirements", Value.int 5)], [], "spec.md"⟩ =
      .error (.typeError (qt "int" ++ " object is not iterable")) ∧
    checkRequirements [("functional_requirements", Value.str "should")] = .ok [] :=
  ⟨C5_scalar_sections.1 [("functional_requirements", Value.int 5)] 5 rfl,
   C5_scalar_sections.2.1 ⟨[("functional_requirements", Value.int 5)], [], "spec.md"⟩ 5 rfl,
   (C5_scalar_sections.2.2 [("functional_requirements", Value.str "should")] "should"
     rfl rfl).2⟩

/-- C7 (code bug): `_extract_apis` uses
`re.findall(r'(GET|POST|PUT|DELETE|PATCH)\s+/[\w/]+', ...)`, and `findall`
returns only the capture group, so the extracted "endpoint signatures" are
bare HTTP methods.  Concretely: a document whose only endpoint is
`GET /users` extracts to `["GET"]`, and against a sibling whose only
endpoint is `GET /orders` — no shared `METHOD /path` signature — the
cross-reference gate still emits the ERROR-level conflict
`Conflict with other: Duplicate API endpoint: GET` and fails, contradicting
the documented `METHOD /path` duplicate semantics. -/
theorem C7_endpoint_conflict_bug :
    extractApis [("api_contracts", Value.list [Value.str "GET /users"])] = ["GET"] ∧
    extractApis [("metadata", Value.dict [("name", Value.str "other")]),
      ("api_contracts", Value.list [Value.str "GET /orders"])] = ["GET"] ∧
    checkSpecConflicts [("api_contracts", Value.list [Value.str "GET /users"])]
      [[("metadata", Value.dict [("name", Value.str "other")]),
        ("api_contracts", Value.list [Value.str "GET /orders"])]] =
      .ok [(Value.str "other", "Duplicate API endpoint: GET")] ∧
    (∃ r, validateLevel4
        ⟨[("api_contracts", Value.list [Value.str "GET /users"])],
         [[("metadata", Value.dict [("name", Value.str "other")]),
           ("api_contracts", Value.list [Value.str "GET /orders"])]], "a.yaml"⟩ = .ok r ∧
      "Conflict with other: Duplicate API endpoint: GET" ∈ r.errors ∧ r.passed = false) := by
  refine ⟨rfl, rfl, rfl, ⟨_, rfl, by decide, by decide⟩⟩

/-- Shape of every SYNTAX-level result: level tag, `ready_for_adversarial`
hard-wired to `False`, and `passed` iff the error list is empty. -/
theorem validateLevel1_shape {ctx : Ctx} {r : ValidationResult}
    (h : validateLevel1 ctx = .ok r) :
    r.level = .SYN ∧ r.ready_for_adversarial = false ∧ r.passed = r.errors.isEmpty := by
  unfold validateLevel1 at h
  rw [exceptBindOk] at h
  obtain ⟨a, -, h⟩ := h
  simp only [Except.ok.injEq] at h
  subst h
  exact ⟨rfl, rfl, rfl⟩

/-- Shape of every SEMANTIC-level result. -/
theorem validateLevel2_shape {ctx : Ctx} {r : ValidationResult}
    (h : validateLevel2 ctx = .ok r) :
    r.level = .SEMANTIC ∧ r.ready_for_adversarial = false ∧ r.passed = r.errors.isEmpty := by
  unfold validateLevel2 at h
  rw [exceptBindOk] at h
  obtain ⟨a, -, h⟩ := h
  rw [exceptBindOk] at h
  obtain ⟨b, -, h⟩ := h
  rw [exceptBindOk] at h
  obtain ⟨c, -, h⟩ := h
  simp only [Except.ok.injEq] at h
  subst h
  exact ⟨rfl, rfl, rfl⟩

/-- Shape of every COVERAGE-level result. -/
theorem validateLevel3_shape {ctx : Ctx} {r : ValidationResult}
    (h : validateLevel3 ctx = .ok r) :
    r.level = .COVERAGE ∧ r.ready_for_adversarial = false ∧ r.passed = r.errors.isEmpty := by
  unfold validateLevel3 at h
  rw [exceptBindOk] at h
  obtain ⟨a, -, h⟩ := h
  rw [exceptBindOk] at h
  obtain ⟨b, -, h⟩ := h
  simp only [Except.ok.injEq] at h
  subst h
  exact ⟨rfl, rfl, rfl⟩

/-- Shape of every CROSS_REFERENCE-level result: `ready_for_adversarial`
equals `passed`, both iff the error list is empty. -/
theorem validateLevel4_shape {ctx : Ctx} {r : ValidationResult}
    (h : validateLevel4 ctx = .ok r) :
    r.level = .CROSS_REFERENCE ∧ r.ready_for_adversarial = r.passed ∧
      r.passed = r.errors.isEmpty := by
  unfold validateLevel4 at h
  rw [exceptBindOk] at h
  obtain ⟨a, -, h⟩ := h
  simp only [Except.ok.injEq] at h
  subst h
  exact ⟨rfl, rfl, rfl⟩

/-- Case analysis of a successful pipeline run: levels run strictly in order,
each attempted level's result is recorded, and the run stops exactly at the
first non-passing result. -/
theorem runProg_cases {ctx : Ctx} {results : List (ValidationLevel × ValidationResult)}
    (h : runProgressiveValidation ctx = .ok results) :
    (∃ r1, validateLevel1 ctx = .ok r1 ∧ r1.passed = false ∧
      results = [(.SYN, r1)]) ∨
    (∃ r1 r2, validateLevel1 ctx = .ok r1 ∧ r1.passed = true ∧
      validateLevel2 ctx = .ok r2 ∧ r2.passed = false ∧
      results = [(.SYN, r1), (.SEMANTIC, r2)]) ∨
    (∃ r1 r2 r3, validateLevel1 ctx = .ok r1 ∧ r1.passed = true ∧
      validateLevel2 ctx = .ok r2 ∧ r2.passed = true ∧
      validateLevel3 ctx = .ok r3 ∧ r3.passed = false ∧
      results = [(.SYN, r1), (.SEMANTIC, r2), (.COVERAGE, r3)]) ∨
    (∃ r1 r2 r3 r4, validateLevel1 ctx = .ok r1 ∧ r1.passed = true ∧
      validateLevel2 ctx = .ok r2 ∧ r2.passed = true ∧
      validateLevel3 ctx = .ok r3 ∧ r3.passed = true ∧
      validateLevel4 ctx = .ok r4 ∧
      results = [(.SYN, r1), (.SEMANTIC, r2), (.COVERAGE, r3), (.CROSS_REFERENCE, r4)]) := by
  unfold runProgressiveValidation at h
  rw [exceptBindOk] at h
  obtain ⟨r1, h1, h⟩ := h
  by_cases hp1 : r1.passed = false
  · rw [if_pos hp1] at h
    simp only [Except.ok.injEq] at h
    exact Or.inl ⟨r1, h1, hp1, h.symm⟩
  · rw [if_neg hp1] at h
    rw [exceptBindOk] at h
    obtain ⟨r2, h2, h⟩ := h
    by_cases hp2 : r2.passed = false
    · rw [if_pos hp2] at h
      simp only [Except.ok.injEq] at h
      exact Or.inr (Or.inl ⟨r1, r2, h1, by simpa using hp1, h2, hp2, h.symm⟩)
    · rw [if_neg hp2] at h
      rw [exceptBindOk] at h
      obtain ⟨r3, h3, h⟩ := h
      by_cases hp3 : r3.passed = false
      · rw [if_pos hp3] at h
        simp only [Except.ok.injEq] at h
        exact Or.inr (Or.inr (Or.inl ⟨r1, r2, r3, h1, by simpa using hp1, h2,
          by simpa using hp2, h3, hp3, h.symm⟩))
      · rw [if_neg hp3] at h
        rw [exceptBindOk] at h
        obtain ⟨r4, h4, h⟩ := h
        simp only [Except.ok.injEq] at h
        exact Or.inr (Or.inr (Or.inr ⟨r1, r2, r3, r4, h1, by simpa using hp1, h2,
          by simpa using hp2, h3, by simpa using hp3, h4, h.symm⟩))

/-- `passed` is the emptiness of the error list, as a propositional iff. -/
theorem passed_iff_no_errors {r : ValidationResult} (hsh : r.passed = r.errors.isEmpty) :
    r.passed = true ↔ r.errors = [] := by
  rw [hsh]
  exact List.isEmpty_iff

/-- A document with no `functional_requirements` key fails the SYNTAX gate
with an error naming the section (and the gate itself cannot raise there). -/
theorem validateLevel1_missing_fr {ctx : Ctx}
    (h : docGet ctx.spec "functional_requirements" = Option.none) :
    ∃ r, validateLevel1 ctx = .ok r ∧ r.passed = false ∧
      "Missing required section: functional_requirements" ∈ r.errors := by
  have hid : level1IdWarnings ctx.spec = .ok [] := by
    unfold level1IdWarnings
    rw [h]
  have hmem : "Missing required section: functional_requirements" ∈
      requiredSectionErrors ctx.spec := by
    unfold requiredSectionErrors
    apply List.mem_filterMap.mpr
    refine ⟨"functional_requirements", by decide, ?_⟩
    rw [h]
    rfl
  have hne : requiredSectionErrors ctx.spec ≠ [] := List.ne_nil_of_mem hmem
  unfold validateLevel1
  rw [hid]
  refine ⟨_, rfl, ?_, ?_⟩
  · simpa using hne
  · exact hmem

/-- C2: the gate pipeline.  Every successful run attempts the levels
strictly in the order SYNTAX, SEMANTIC, COVERAGE, CROSS_REFERENCE; the
returned association list holds exactly the attempted levels (one to four
entries, a prefix of the level order); every entry before the last passed;
if fewer than four levels ran, the last entry did not pass (the run stopped
at the first result with an error, `passed` being exactly error-list
emptiness).  Moreover, for every context whose document lacks the
`functional_requirements` key, the run returns exactly one entry — the
SYNTAX result — with `passed = false` and an error naming
`functional_requirements`; the SEMANTIC level never runs. -/
theorem C2_gate_pipeline :
    (∀ (ctx : Ctx) (results : List (ValidationLevel × ValidationResult)),
      runProgressiveValidation ctx = .ok results →
      results.map Prod.fst =
        [ValidationLevel.SYN, ValidationLevel.SEMANTIC, ValidationLevel.COVERAGE,
          ValidationLevel.CROSS_REFERENCE].take results.length ∧
      1 ≤ results.length ∧ results.length ≤ 4 ∧
      (∀ p ∈ results.dropLast, p.2.passed = true) ∧
      (results.length < 4 →
        ∃ last, results.getLast? = some last ∧ last.2.passed = false) ∧
      (∀ p ∈ results, p.2.passed = true ↔ p.2.errors = [])) ∧
    (∀ ctx : Ctx, docGet ctx.spec "functional_requirements" = Option.none →
      ∃ r, runProgressiveValidation ctx = .ok [(ValidationLevel.SYN, r)] ∧
        r.passed = false ∧
        "Missing required section: functional_requirements" ∈ r.errors) := by
  constructor
  · intro ctx results h
    rcases runProg_cases h with ⟨r1, h1, hp1, hres⟩ |
      ⟨r1, r2, h1, hp1, h2, hp2, hres⟩ |
      ⟨r1, r2, r3, h1, hp1, h2, hp2, h3, hp3, hres⟩ |
      ⟨r1, r2, r3, r4, h1, hp1, h2, hp2, h3, hp3, h4, hres⟩ <;> subst hres
    · refine ⟨rfl, by simp, by simp, by simp, ?_, ?_⟩
      · intro _
        exact ⟨(.SYN, r1), rfl, hp1⟩
      · intro p hp
        rcases List.mem_singleton.mp hp with rfl
        exact passed_iff_no_errors (validateLevel1_shape h1).2.2
    · refine ⟨rfl, by simp, by simp, ?_, ?_, ?_⟩
      · intro p hp
        rcases List.mem_singleton.mp (by simpa using hp) with rfl
        exact hp1
      · intro _
        exact ⟨(.SEMANTIC, r2), rfl, hp2⟩
      · intro p hp
        rcases List.mem_cons.mp hp with rfl | hp
        · exact passed_iff_no_errors (validateLevel1_shape h1).2.2
        rcases List.mem_singleton.mp hp with rfl
        exact passed_iff_no_errors (validateLevel2_shape h2).2.2
    · refine ⟨rfl, by simp, by simp, ?_, ?_, ?_⟩
      · intro p hp
        rcases (by simpa using hp : p = (ValidationLevel.SYN, r1) ∨
            p = (ValidationLevel.SEMANTIC, r2)) with rfl | rfl
        · exact hp1
        · exact hp2
      · intro _
        exact ⟨(.COVERAGE, r3), rfl, hp3⟩
      · intro p hp
        rcases List.mem_cons.mp hp with rfl | hp
        · exact passed_iff_no_errors (validateLevel1_shape h1).2.2
        rcases List.mem_cons.mp hp with rfl | hp
        · exact passed_iff_no_errors (validateLevel2_shape h2).2.2
        rcases List.mem_singleton.mp hp with rfl
        exact passed_iff_no_errors (validateLevel3_shape h3).2.2
    · refine ⟨rfl, by simp, by simp, ?_, ?_, ?_⟩
      · intro p hp
        rcases (by simpa using hp : p = (ValidationLevel.SYN, r1) ∨
            p = (ValidationLevel.SEMANTIC, r2) ∨
            p = (ValidationLevel.COVERAGE, r3)) with rfl | rfl | rfl
        · exact hp1
        · exact hp2
        · exact hp3
      · intro hlt
        exact absurd hlt (by simp)
      · intro p hp
        rcases List.mem_cons.mp hp with rfl | hp
        · exact passed_iff_no_errors (validateLevel1_shape h1).2.2
        rcases List.mem_cons.mp hp with rfl | hp
        · exact passed_iff_no_errors (validateLevel2_shape h2).2.2
        rcases List.mem_cons.mp hp with rfl | hp
        · exact passed_iff_no_errors (validateLevel3_shape h3).2.2
        rcases List.mem_singleton.mp hp with rfl
        exact passed_iff_no_errors (validateLevel4_shape h4).2.2
  · intro ctx h
    obtain ⟨r, hok, hpassed, hmem⟩ := validateLevel1_missing_fr h
    refine ⟨r, ?_, hpassed, hmem⟩
    unfold runProgressiveValidation
    rw [hok]
    simp only [Except.bind]
    rw [if_pos hpassed]

/-- Witness for C2: the empty document (no `functional_requirements` key)
yields exactly the failing SYNTAX entry. -/
theorem C2_gate_pipeline_witness :
    ∃ r, runProgressiveValidation ⟨[], [], "spec.md"⟩ =
        .ok [(ValidationLevel.SYN, r)] ∧ r.passed = false ∧
      "Missing required section: functional_requirements" ∈ r.errors :=
  C2_gate_pipeline.2 ⟨[], [], "spec.md"⟩ rfl

/-- C4: `ready_for_adversarial` is not a running aggregate.  The SYNTAX,
SEMANTIC and COVERAGE validators return `ready_for_adversarial = false`
unconditionally (whether or not they passed); the CROSS_REFERENCE validator
returns `ready_for_adversarial = passed`.  Consequently, in every pipeline
run the flag is true only on the CROSS_REFERENCE entry and only when that
entry passed, and every non-CROSS_REFERENCE entry reports it false. -/
theorem C4_ready_for_adversarial :
    (∀ (ctx : Ctx) (r : ValidationResult), validateLevel1 ctx = .ok r →
      r.ready_for_adversarial = false) ∧
    (∀ (ctx : Ctx) (r : ValidationResult), validateLevel2 ctx = .ok r →
      r.ready_for_adversarial = false) ∧
    (∀ (ctx : Ctx) (r : ValidationResult), validateLevel3 ctx = .ok r →
      r.ready_for_adversarial = false) ∧
    (∀ (ctx : Ctx) (r : ValidationResult), validateLevel4 ctx = .ok r →
      r.ready_for_adversarial = r.passed) ∧
    (∀ (ctx : Ctx) (results : List (ValidationLevel × ValidationResult))
      (lv : ValidationLevel) (r : ValidationResult),
      runProgressiveValidation ctx = .ok results → (lv, r) ∈ results →
      (r.ready_for_adversarial = true →
        lv = ValidationLevel.CROSS_REFERENCE ∧ r.passed = true) ∧
      (lv ≠ ValidationLevel.CROSS_REFERENCE → r.ready_for_adversarial = false)) := by
  refine ⟨fun ctx r h => (validateLevel1_shape h).2.1,
    fun ctx r h => (validateLevel2_shape h).2.1,
    fun ctx r h => (validateLevel3_shape h).2.1,
    fun ctx r h => (validateLevel4_shape h).2.1, ?_⟩
  intro ctx results lv r h hmem
  have notReady : ∀ {r0 : ValidationResult}, r0.ready_for_adversarial = false →
      (r0.ready_for_adversarial = true → lv = ValidationLevel.CROSS_REFERENCE ∧
        r0.passed = true) ∧
      (lv ≠ ValidationLevel.CROSS_REFERENCE → r0.ready_for_adversarial = false) := by
    intro r0 hf
    refine ⟨?_, fun _ => hf⟩
    intro htrue
    rw [hf] at htrue
    cases htrue
  rcases runProg_cases h with ⟨r1, h1, hp1, hres⟩ |
    ⟨r1, r2, h1, hp1, h2, hp2, hres⟩ |
    ⟨r1, r2, r3, h1, hp1, h2, hp2, h3, hp3, hres⟩ |
    ⟨r1, r2, r3, r4, h1, hp1, h2, hp2, h3, hp3, h4, hres⟩ <;> subst hres
  · rcases List.mem_singleton.mp hmem with h'
    cases h'
    exact notReady (validateLevel1_shape h1).2.1
  · rcases List.mem_cons.mp hmem with h' | hmem
    · cases h'
      exact notReady (validateLevel1_shape h1).2.1
    rcases List.mem_singleton.mp hmem with h'
    cases h'
    exact notReady (validateLevel2_shape h2).2.1
  · rcases List.mem_cons.mp hmem with h' | hmem
    · cases h'
      exact notReady (validateLevel1_shape h1).2.1
    rcases List.mem_cons.mp hmem with h' | hmem
    · cases h'
      exact notReady (validateLevel2_shape h2).2.1
    rcases List.mem_singleton.mp hmem with h'
    cases h'
    exact notReady (validateLevel3_shape h3).2.1
  · rcases List.mem_cons.mp hmem with h' | hmem
    · cases h'
      exact notReady (validateLevel1_shape h1).2.1
    rcases List.mem_cons.mp hmem with h' | hmem
    · cases h'
      exact notReady (validateLevel2_shape h2).2.1
    rcases List.mem_cons.mp hmem with h' | hmem
    · cases h'
      exact notReady (validateLevel3_shape h3).2.1
    rcases List.mem_singleton.mp hmem with h'
    cases h'
    have h41 := (validateLevel4_shape h4).2.1
    refine ⟨fun htrue => ⟨rfl, by rw [← h41]; exact htrue⟩, fun hne => absurd rfl hne⟩

/-- Witness for C4: a concrete failing SYNTAX result reports
`ready_for_adversarial = false`. -/
theorem C4_ready_for_adversarial_witness :
    ({ passed := false, level := ValidationLevel.SYN,
       errors := ["Missing required section: user_stories",
         "Missing required section: functional_requirements",
         "Missing required section: acceptance_criteria"],
       warnings := [], suggestions := [],
       ready_for_adversarial := false } : ValidationResult).ready_for_adversarial = false :=
  C4_ready_for_adversarial.1 ⟨[], [], "spec.md"⟩ _ (by rfl)

/-- C6: complexity gating.  With a list-valued (or absent)
`functional_requirements` section, `_is_complex_spec` succeeds and returns
true exactly when at least two of the five indicators hold — the text
mentions `database`, `migration`, `payment` or `distributed`, or there are
more than 10 functional requirements.  And whenever the document is complex
and its text lacks a rollback/recovery mention, the COVERAGE gate's result
contains the error `Complex spec lacks rollback procedures` and fails. -/
theorem C6_complex_spec :
    (∀ (spec : SpecDoc) (fr : List Value),
      (docGet spec "functional_requirements" = Option.none ∧ fr = [] ∨
        docGet spec "functional_requirements" = some (Value.list fr)) →
      ∃ b, isComplexSpec spec = .ok b ∧
        (b = true ↔ 2 ≤ ([strContains (specTextLower spec) "database",
            strContains (specTextLower spec) "migration",
            strContains (specTextLower spec) "payment",
            decide (10 < fr.length),
            strContains (specTextLower spec) "distributed"].countP (fun x => x)))) ∧
    (∀ (ctx : Ctx) (r : ValidationResult),
      isComplexSpec ctx.spec = .ok true →
      strContains (specTextLower ctx.spec) "rollback" = false →
      strContains (specTextLower ctx.spec) "recovery" = false →
      validateLevel3 ctx = .ok r →
      "Complex spec lacks rollback procedures" ∈ r.errors ∧ r.passed = false) := by
  constructor
  · intro spec fr hfr
    unfold isComplexSpec
    rcases hfr with ⟨hnone, hempty⟩ | hsome
    · subst hempty
      unfold docGetD
      rw [hnone]
      exact ⟨_, rfl, decide_eq_true_iff⟩
    · unfold docGetD
      rw [hsome]
      exact ⟨_, rfl, decide_eq_true_iff⟩
  · intro ctx r hcplx hroll hrec h
    unfold validateLevel3 at h
    rw [exceptBindOk] at h
    obtain ⟨sw, -, h⟩ := h
    rw [hcplx] at h
    simp only [Except.bind, Except.ok.injEq] at h
    subst h
    have hgap : (true && !(strContains (specTextLower ctx.spec) "rollback")) = true := by
      rw [hroll]
      rfl
    constructor
    · apply List.mem_append_right
      rw [if_pos hgap]
      exact List.mem_singleton.mpr rfl
    · have hmem : "Complex spec lacks rollback procedures" ∈
          (if !(["error", "fail", "invalid", "exception", "timeout"].any
              (fun k => strContains (specTextLower ctx.spec) k)) then
            ["No error conditions or failure scenarios defined"] else []) ++
          (if (true && !(strContains (specTextLower ctx.spec) "rollback")) = true then
            ["Complex spec lacks rollback procedures"] else []) := by
        apply List.mem_append_right
        rw [if_pos hgap]
        exact List.mem_singleton.mpr rfl
      simpa using List.ne_nil_of_mem hmem

/-- Witness for C6 at a concrete document mentioning database and migration
with no rollback/recovery mention: it is complex and the COVERAGE gate
fails with the rollback error. -/
theorem C6_complex_spec_witness :
    (∃ b, isComplexSpec [("d", Value.str "database migration plan"),
        ("functional_requirements", Value.list [])] = .ok b ∧
      (b = true ↔ 2 ≤ ([strContains (specTextLower [("d", Value.str "database migration plan"),
          ("functional_requirements", Value.list [])]) "database",
        strContains (specTextLower [("d", Value.str "database migration plan"),
          ("functional_requirements", Value.list [])]) "migration",
        strContains (specTextLower [("d", Value.str "database migration plan"),
          ("functional_requirements", Value.list [])]) "payment",
        decide (10 < ([] : List Value).length),
        strContains (specTextLower [("d", Value.str "database migration plan"),
          ("functional_requirements", Value.list [])]) "distributed"].countP (fun x => x)))) ∧
    ("Complex spec lacks rollback procedures" ∈
      ({ passed := false, level := ValidationLevel.COVERAGE,
         errors := ["No error conditions or failure scenarios defined",
           "Complex spec lacks rollback procedures"],
         warnings := ["No resource limits specified"],
         suggestions := ["Add error handling requirements for each major operation",
           "Define resource constraints and limits", "Add rollback and recovery procedures"],
         ready_for_adversarial := false } : ValidationResult).errors ∧
      ({ passed := false, level := ValidationLevel.COVERAGE,
         errors := ["No error conditions or failure scenarios defined",
           "Complex spec lacks rollback procedures"],
         warnings := ["No resource limits specified"],
         suggestions := ["Add error handling requirements for each major operation",
           "Define resource constraints and limits", "Add rollback and recovery procedures"],
         ready_for_adversarial := false } : ValidationResult).passed = false) :=
  ⟨C6_complex_spec.1 [("d", Value.str "database migration plan"),
      ("functional_requirements", Value.list [])] [] (Or.inr rfl),
   C6_complex_spec.2 ⟨[("d", Value.str "database migration plan"),
      ("functional_requirements", Value.list [])], [], "spec.md"⟩ _
     (by rfl) (by rfl) (by rfl) (by rfl)⟩
